import Mathlib

/-!
Verification development for the ORCA tagging / audit / shared-folder-metrics
backend.  The Python sources are shallowly embedded: the per-version HSTORE
tag map becomes an association list, database tables become lists of records,
and each endpoint / utility function becomes a pure Lean function mirroring
the source control flow.  SQL queries are embedded as list filters whose
conditions mirror the `WHERE` clauses, and in-session object mutation becomes
a map over the affected rows.
-/

namespace Orca

/-- The per-version HSTORE tag map (`tags` column of `output_detail_versions`):
an association list from tag-id (rendered as a string key) to tag name. -/
abbrev Hstore := List (String × String)

/-- Key-existence test on the tag map (`tag_key in od.tags` / SQL `tags ? key`). -/
def hstoreHasKey (h : Hstore) (k : String) : Bool :=
  h.any (fun p => p.1 == k)

/-- Value lookup on the tag map (`od.tags[tag_key]` read). -/
def hstoreGet (h : Hstore) (k : String) : Option String :=
  (h.find? (fun p => p.1 == k)).map (·.2)

/-- Key deletion on the tag map (`del od.tags[tag_key]`). -/
def hstoreErase (h : Hstore) (k : String) : Hstore :=
  h.filter (fun p => !(p.1 == k))

/-- In-place value overwrite on the tag map (`version.tags[tag_key] = new_tag_name`
when the key is already present). -/
def hstoreSet (h : Hstore) (k v : String) : Hstore :=
  h.map (fun p => if p.1 == k then (p.1, v) else p)

/-- `app/models/output_detail_version.py`, `OutputDetailVersion`: one row of
`output_detail_versions`.  Fields not touched by the modelled operations
(`file_size`, the three timestamps) are omitted. -/
structure OutputDetailVersion where
  id : Nat
  output_id : Nat
  version_major : Nat
  version_minor : Nat
  version_patch : Nat
  file_path : Option String
  is_latest : Bool
  tags : Hstore
  deriving DecidableEq

/-- `tag_utils.update_output_details_hstore_tags`, body of the per-version loop:
add `str(tag_id) ↦ tag_name` to the version's tag map only if the key is not
already present (no-op otherwise). -/
def addTagToVersion (tag_id : Nat) (tag_name : String) (od : OutputDetailVersion) :
    OutputDetailVersion :=
  if hstoreHasKey od.tags (toString tag_id) then od
  else { od with tags := od.tags ++ [(toString tag_id, tag_name)] }

/-- `tag_utils.update_output_details_hstore_tags`: apply the conditional insert
to every version in the given list. -/
def update_output_details_hstore_tags (output_detail_versions : List OutputDetailVersion)
    (tag_id : Nat) (tag_name : String) : List OutputDetailVersion :=
  output_detail_versions.map (addTagToVersion tag_id tag_name)

/-- `tag_utils.remove_output_details_hstore_tags`, body of the per-version loop:
delete the key `str(tag_id)` from the version's tag map if present. -/
def removeTagFromVersion (tag_id : Nat) (od : OutputDetailVersion) : OutputDetailVersion :=
  if hstoreHasKey od.tags (toString tag_id) then
    { od with tags := hstoreErase od.tags (toString tag_id) }
  else od

/-- `tag_utils.remove_output_details_hstore_tags`: apply the key deletion to
every version in the given list. -/
def remove_output_details_hstore_tags (output_detail_versions : List OutputDetailVersion)
    (tag_id : Nat) : List OutputDetailVersion :=
  output_detail_versions.map (removeTagFromVersion tag_id)

/-- `tag_utils.update_tag_name_in_output_versions`: over the whole
`output_detail_versions` table, overwrite the value held under key
`str(tag_id)` with the new tag name wherever the key is present (the SQL
`has_key` filter combined with the in-loop `tag_key in version.tags` check). -/
def update_tag_name_in_output_versions (db : List OutputDetailVersion)
    (tag_id : Nat) (new_tag_name : String) : List OutputDetailVersion :=
  db.map (fun version =>
    if hstoreHasKey version.tags (toString tag_id) then
      { version with tags := hstoreSet version.tags (toString tag_id) new_tag_name }
    else version)

/-- `output_detail.sync_output_details` (`POST /output-details/sync`), the two
database writes, applied to the whole `output_detail_versions` table `db`:
first the key `str(tag_id)` is deleted from every selected version (those of
the requested outputs that carry the key; all key-carrying versions when the
request's id list is empty), then the key is inserted with the hardcoded
value `"tag_name"` onto every `is_latest` version of the affected outputs.
`syncVersionStep` is the net per-row effect of the two session writes; the
endpoint is then a map of this step over the version table. -/
def syncVersionStep (tag_id : Nat) (effectiveIds : List Nat) (removalSelected : Bool)
    (v : OutputDetailVersion) : OutputDetailVersion :=
  let v1 := if removalSelected then removeTagFromVersion tag_id v else v
  if decide (v1.output_id ∈ effectiveIds) && v1.is_latest then
    addTagToVersion tag_id "tag_name" v1
  else v1

def sync_output_details (db : List OutputDetailVersion) (tag_id : Nat)
    (output_detail_ids : List Nat) : List OutputDetailVersion :=
  let key := toString tag_id
  let effectiveIds : List Nat :=
    if output_detail_ids.isEmpty then
      (db.filter (fun v => hstoreHasKey v.tags key)).map (·.output_id)
    else output_detail_ids
  db.map (fun v =>
    syncVersionStep tag_id effectiveIds
      (if output_detail_ids.isEmpty then hstoreHasKey v.tags key
       else decide (v.output_id ∈ output_detail_ids) && hstoreHasKey v.tags key) v)

/-- Modelled from the spec: no code under `src/` creates `OutputDetailVersion`
rows or clears `is_latest` (the external-storage ingestion that promotes a new
version is outside the repository; `lustre_sync_module.update_output_detail_record`
only rewrites the denormalized version string on `OutputDetail`).  Following
§4.1 `promoteVersion`: atomically clear `is_latest` on every prior version and
append the new version with `is_latest = true` and an empty tag map. -/
def promoteVersion (versions : List OutputDetailVersion)
    (newVersion : OutputDetailVersion) : List OutputDetailVersion :=
  (versions.map (fun v => { v with is_latest := false })) ++
    [{ newVersion with is_latest := true, tags := [] }]

/-- `OutputDetailVersion` model default: a freshly created first version has
`is_latest = true` (column default `server_default="true"`). -/
def createFirstVersion (v : OutputDetailVersion) : List OutputDetailVersion :=
  [{ v with is_latest := true }]

theorem hstoreHasKey_append_self (h : Hstore) (k v : String) :
    hstoreHasKey (h ++ [(k, v)]) k = true := by
  simp [hstoreHasKey]

theorem hstoreHasKey_erase (h : Hstore) (k : String) :
    hstoreHasKey (hstoreErase h k) k = false := by
  simp only [hstoreHasKey, hstoreErase, List.any_eq_false]
  intro p hp
  have hpf := List.of_mem_filter hp
  simpa using hpf

theorem hstoreGet_append_of_not_hasKey (h : Hstore) (k v : String)
    (hk : hstoreHasKey h k = false) : hstoreGet (h ++ [(k, v)]) k = some v := by
  induction h with
  | nil => simp [hstoreGet]
  | cons p t ih =>
      simp only [hstoreHasKey, List.any_cons, Bool.or_eq_false_iff] at hk
      simp only [hstoreGet, List.cons_append, List.find?_cons, hk.1]
      exact ih hk.2

theorem hstoreSet_keys (h : Hstore) (k v : String) :
    (hstoreSet h k v).map Prod.fst = h.map Prod.fst := by
  unfold hstoreSet
  rw [List.map_map]
  refine List.map_congr_left ?_
  intro p _
  simp only [Function.comp_apply]
  split <;> rfl

theorem hstoreGet_set_of_hasKey (h : Hstore) (k v : String)
    (hk : hstoreHasKey h k = true) : hstoreGet (hstoreSet h k v) k = some v := by
  induction h with
  | nil => simp [hstoreHasKey] at hk
  | cons p t ih =>
      by_cases hpk : (p.1 == k) = true
      · simp only [hstoreSet, List.map_cons, if_pos hpk]
        simp only [hstoreGet, List.find?_cons, hpk]
        rfl
      · have hk' : hstoreHasKey t k = true := by
          simp only [hstoreHasKey, List.any_cons, hpk, Bool.false_or] at hk
          exact hk
        simp only [hstoreSet, List.map_cons, if_neg hpk]
        simp only [hstoreGet, List.find?_cons, hpk]
        simpa [hstoreGet, hstoreSet] using ih hk'

theorem addTagToVersion_idem (tag_id : Nat) (tag_name : String)
    (od : OutputDetailVersion) :
    addTagToVersion tag_id tag_name (addTagToVersion tag_id tag_name od) =
      addTagToVersion tag_id tag_name od := by
  unfold addTagToVersion
  by_cases h : hstoreHasKey od.tags (toString tag_id)
  · simp [h]
  · simp only [h, Bool.false_eq_true, if_false]
    simp [hstoreHasKey_append_self]

/-- C10: attaching a tag (`update_output_details_hstore_tags`) twice with the
same `(tagId, tagName)` over the same versions produces the same tag-map state
as attaching it once, and attaching a tag id already present in a version's
tag map is a no-op on that version, leaving its existing value unchanged. -/
theorem attachTag_idempotent_c10 (vs : List OutputDetailVersion) (tag_id : Nat)
    (tag_name : String) :
    update_output_details_hstore_tags
        (update_output_details_hstore_tags vs tag_id tag_name) tag_id tag_name =
      update_output_details_hstore_tags vs tag_id tag_name ∧
    ∀ od ∈ vs, hstoreHasKey od.tags (toString tag_id) = true →
      addTagToVersion tag_id tag_name od = od := by
  constructor
  · unfold update_output_details_hstore_tags
    rw [List.map_map]
    refine List.map_congr_left ?_
    intro od _
    exact addTagToVersion_idem tag_id tag_name od
  · intro od _ h
    unfold addTagToVersion
    simp [h]

/-- C10 witness: the idempotence and already-present no-op evaluated at a
concrete version list. -/
theorem attachTag_idempotent_c10_witness :
    update_output_details_hstore_tags
        (update_output_details_hstore_tags
          [⟨1, 10, 1, 0, 0, none, true, [("5", "OLD")]⟩] 5 "NEW") 5 "NEW" =
      update_output_details_hstore_tags
        [⟨1, 10, 1, 0, 0, none, true, [("5", "OLD")]⟩] 5 "NEW" ∧
    addTagToVersion 5 "NEW" ⟨1, 10, 1, 0, 0, none, true, [("5", "OLD")]⟩ =
      ⟨1, 10, 1, 0, 0, none, true, [("5", "OLD")]⟩ := by
  have h := attachTag_idempotent_c10 [⟨1, 10, 1, 0, 0, none, true, [("5", "OLD")]⟩] 5 "NEW"
  exact ⟨h.1, h.2 _ (by decide) (by decide)⟩

/-- C9: renaming a tag (`update_tag_name_in_output_versions`) rewrites the
value under the tag's key in every version (latest or historical) whose tag
map contains the key — re-reading any such version yields the new name — and
the keys of every version's tag map are unchanged. -/
theorem renameTag_roundtrip_c9 (db : List OutputDetailVersion) (tag_id : Nat)
    (new_tag_name : String) :
    (update_tag_name_in_output_versions db tag_id new_tag_name).map
        (fun v => v.tags.map Prod.fst) = db.map (fun v => v.tags.map Prod.fst) ∧
    ∀ v ∈ update_tag_name_in_output_versions db tag_id new_tag_name,
      hstoreHasKey v.tags (toString tag_id) = true →
        hstoreGet v.tags (toString tag_id) = some new_tag_name := by
  constructor
  · unfold update_tag_name_in_output_versions
    rw [List.map_map]
    refine List.map_congr_left ?_
    intro v _
    by_cases h : hstoreHasKey v.tags (toString tag_id) = true
    · simp only [Function.comp_apply, if_pos h]
      exact hstoreSet_keys v.tags (toString tag_id) new_tag_name
    · simp only [Function.comp_apply, if_neg h]
  · intro v hv hkey
    rw [update_tag_name_in_output_versions, List.mem_map] at hv
    obtain ⟨v0, _, rfl⟩ := hv
    by_cases h : hstoreHasKey v0.tags (toString tag_id) = true
    · simp only [if_pos h]
      exact hstoreGet_set_of_hasKey v0.tags (toString tag_id) new_tag_name h
    · simp only [if_neg h] at hkey
      exact absurd hkey h

/-- C9 witness: renaming tag 7 to "NEWNAME" on a two-version store rewrites the
value on the historical version that carries the key. -/
theorem renameTag_roundtrip_c9_witness :
    (update_tag_name_in_output_versions
        [⟨1, 10, 1, 0, 0, none, false, [("7", "OLD")]⟩,
         ⟨2, 10, 2, 0, 0, none, true, []⟩] 7 "NEWNAME").map
        (fun v => v.tags.map Prod.fst) =
      [["7"], []] ∧
    hstoreGet ([("7", "NEWNAME")] : Hstore) (toString 7) = some "NEWNAME" := by
  have h := renameTag_roundtrip_c9
    [⟨1, 10, 1, 0, 0, none, false, [("7", "OLD")]⟩, ⟨2, 10, 2, 0, 0, none, true, []⟩]
    7 "NEWNAME"
  refine ⟨by decide, ?_⟩
  exact h.2 ⟨1, 10, 1, 0, 0, none, false, [("7", "NEWNAME")]⟩ (by decide) (by decide)

/-- C2: exactly one version per output file carries `is_latest = true` after a
version promotion, and after the creation of a first version (the model
default sets `is_latest = true`).  `promoteVersion` is modelled from the spec
(no code under `src/` creates version rows or clears `is_latest`). -/
theorem is_latest_unique_c2 (versions : List OutputDetailVersion)
    (newVersion v0 : OutputDetailVersion) :
    (promoteVersion versions newVersion).countP (fun v => v.is_latest) = 1 ∧
    (createFirstVersion v0).countP (fun v => v.is_latest) = 1 := by
  constructor
  · unfold promoteVersion
    rw [List.countP_append, List.countP_map]
    simp [List.countP_cons, Function.comp_def]
  · simp [createFirstVersion, List.countP_cons]

/-- Historical version of output 10: carries tag 7 (named "ADR_2024"), not latest. -/
def c1Historical : OutputDetailVersion :=
  ⟨1, 10, 1, 0, 0, some "PROD/CompoundX/StudyY/DBR1/file.pdf", false, [("7", "ADR_2024")]⟩

/-- Current-latest version of output 10 with an empty tag map (as after a
version promotion). -/
def c1Latest : OutputDetailVersion :=
  ⟨2, 10, 2, 0, 0, some "PROD/CompoundX/StudyY/DBR1/file.pdf", true, []⟩

/-- The version table for the re-sync scenario. -/
def c1Db : List OutputDetailVersion := [c1Historical, c1Latest]

/-- C1 counterexample: on the scenario state (tag 7 named "ADR_2024" carried
only by the historical version of output 10), the manual re-sync does NOT
copy `7 ↦ "ADR_2024"` onto the latest version (it writes the hardcoded
literal `"tag_name"` instead), and the historical version does NOT still
carry the tag key afterwards (the endpoint deletes it first). -/
theorem sync_copies_tag_counterexample_c1 :
    ¬ ((∀ v ∈ sync_output_details c1Db 7 [10],
          v.is_latest = true → hstoreGet v.tags (toString 7) = some "ADR_2024") ∧
       (∃ v ∈ sync_output_details c1Db 7 [10],
          v.is_latest = false ∧ hstoreHasKey v.tags (toString 7) = true)) := by
  decide

/-- C1 amended: for a non-empty requested output id list, the re-sync endpoint
moves the tag key onto the latest versions: afterwards every latest version of
a requested output holds the key with the hardcoded value `"tag_name"` (not
the tag's name), and every non-latest version of a requested output no longer
carries the key at all. -/
theorem removeTagFromVersion_output_id (tag_id : Nat) (v : OutputDetailVersion) :
    (removeTagFromVersion tag_id v).output_id = v.output_id ∧
      (removeTagFromVersion tag_id v).is_latest = v.is_latest := by
  unfold removeTagFromVersion
  split <;> simp

theorem addTagToVersion_output_id (tag_id : Nat) (name : String)
    (v : OutputDetailVersion) :
    (addTagToVersion tag_id name v).output_id = v.output_id ∧
      (addTagToVersion tag_id name v).is_latest = v.is_latest := by
  unfold addTagToVersion
  split <;> simp

theorem addTagToVersion_get (tag_id : Nat) (name : String) (v : OutputDetailVersion)
    (h : hstoreHasKey v.tags (toString tag_id) = false) :
    hstoreGet (addTagToVersion tag_id name v).tags (toString tag_id) = some name := by
  rw [addTagToVersion, if_neg (by simp [h])]
  exact hstoreGet_append_of_not_hasKey v.tags (toString tag_id) name h

theorem syncVersionStep_output_id (tag_id : Nat) (eff : List Nat) (r : Bool)
    (v : OutputDetailVersion) :
    (syncVersionStep tag_id eff r v).output_id = v.output_id ∧
      (syncVersionStep tag_id eff r v).is_latest = v.is_latest := by
  unfold syncVersionStep
  cases r with
  | true =>
      simp only [if_pos]
      split
      · constructor
        · rw [(addTagToVersion_output_id _ _ _).1, (removeTagFromVersion_output_id _ _).1]
        · rw [(addTagToVersion_output_id _ _ _).2, (removeTagFromVersion_output_id _ _).2]
      · exact removeTagFromVersion_output_id _ _
  | false =>
      simp only [Bool.false_eq_true, if_false]
      split
      · exact addTagToVersion_output_id _ _ _
      · exact ⟨rfl, rfl⟩

theorem syncVersionStep_props (tag_id : Nat) (eff : List Nat) (v : OutputDetailVersion)
    (hid : v.output_id ∈ eff) :
    ((syncVersionStep tag_id eff (hstoreHasKey v.tags (toString tag_id)) v).is_latest = true →
        hstoreGet (syncVersionStep tag_id eff (hstoreHasKey v.tags (toString tag_id)) v).tags
          (toString tag_id) = some "tag_name") ∧
    ((syncVersionStep tag_id eff (hstoreHasKey v.tags (toString tag_id)) v).is_latest = false →
        hstoreHasKey (syncVersionStep tag_id eff (hstoreHasKey v.tags (toString tag_id)) v).tags
          (toString tag_id) = false) := by
  have hv1 : ∀ (v1 : OutputDetailVersion),
      v1 = (if hstoreHasKey v.tags (toString tag_id) then removeTagFromVersion tag_id v
            else v) →
      hstoreHasKey v1.tags (toString tag_id) = false ∧ v1.output_id = v.output_id ∧
        v1.is_latest = v.is_latest := by
    intro v1 hv1
    by_cases hk : hstoreHasKey v.tags (toString tag_id) = true
    · rw [hv1, if_pos hk]
      refine ⟨?_, (removeTagFromVersion_output_id _ _).1, (removeTagFromVersion_output_id _ _).2⟩
      rw [removeTagFromVersion, if_pos hk]
      exact hstoreHasKey_erase v.tags (toString tag_id)
    · rw [hv1, if_neg hk]
      exact ⟨by simpa using hk, rfl, rfl⟩
  obtain ⟨hnk, hoid, hlat⟩ := hv1 _ rfl
  unfold syncVersionStep
  by_cases hl : (if hstoreHasKey v.tags (toString tag_id) then removeTagFromVersion tag_id v
      else v).is_latest = true
  · rw [if_pos (by rw [hoid]; simp [hid, hl])]
    constructor
    · intro _
      exact addTagToVersion_get tag_id "tag_name" _ hnk
    · intro hfalse
      rw [(addTagToVersion_output_id _ _ _).2, hl] at hfalse
      exact absurd hfalse (by simp)
  · rw [if_neg (by simp [hl])]
    exact ⟨fun htrue => absurd htrue hl, fun _ => hnk⟩

/-- C1 amended: for a non-empty requested output id list, the re-sync endpoint
moves the tag key onto the latest versions: afterwards every latest version of
a requested output holds the key with the hardcoded value `"tag_name"` (not
the tag's name), and every non-latest version of a requested output no longer
carries the key at all. -/
theorem sync_moves_tag_to_latest_c1 (db : List OutputDetailVersion) (tag_id : Nat)
    (ids : List Nat) (hne : ids ≠ []) :
    ∀ v ∈ sync_output_details db tag_id ids, v.output_id ∈ ids →
      (v.is_latest = true → hstoreGet v.tags (toString tag_id) = some "tag_name") ∧
      (v.is_latest = false → hstoreHasKey v.tags (toString tag_id) = false) := by
  intro v hv hid
  rw [sync_output_details] at hv
  have hie : ids.isEmpty = false := by simpa [List.isEmpty_iff] using hne
  simp only [hie, Bool.false_eq_true, if_false, List.mem_map] at hv
  obtain ⟨v0, _, rfl⟩ := hv
  rw [(syncVersionStep_output_id _ _ _ _).1] at hid
  have hsel : (decide (v0.output_id ∈ ids) && hstoreHasKey v0.tags (toString tag_id)) =
      hstoreHasKey v0.tags (toString tag_id) := by
    simp [hid]
  rw [hsel]
  exact syncVersionStep_props tag_id ids v0 hid

/-- C1 witness for the amended theorem: on the concrete two-version scenario
the latest version of output 10 ends up holding `7 ↦ "tag_name"`. -/
theorem sync_moves_tag_to_latest_c1_witness :
    (([10] : List Nat) ≠ []) ∧
    hstoreGet ({ c1Latest with tags := [(toString 7, "tag_name")] }
      : OutputDetailVersion).tags (toString 7) = some "tag_name" := by
  refine ⟨by decide, ?_⟩
  exact (sync_moves_tag_to_latest_c1 c1Db 7 [10] (by decide)
    { c1Latest with tags := [(toString 7, "tag_name")] } (by decide) (by decide)).1 (by decide)

/-! ## AccessResolver (sprint04 `get_user_output_mapping.py`) -/

/-- `app/models/distribution_list.py` slice used by access resolution and by
the shared-folder-metrics reconciler: id and member usernames. -/
structure DistributionList where
  id : Nat
  users : List String
  deriving DecidableEq

/-- Tag slice used by access resolution (`DatabaseReleaseTag` and
`ReportingEffortTag` are structurally identical for this purpose): direct
usernames and linked distribution lists. -/
structure AccessTag where
  id : Nat
  tag_name : String
  users : List String
  distribution_lists : List DistributionList
  deriving DecidableEq

/-- `DatabaseReleaseTag.get_all_users` / `ReportingEffortTag.get_all_users`:
all users, direct plus from distribution lists (the source returns a Python
set; list membership here models set membership). -/
def AccessTag.get_all_users (t : AccessTag) : List String :=
  t.users ++ t.distribution_lists.flatMap (·.users)

/-- `OutputDetail` slice used by access resolution: id plus the two
many-to-many tag relationships. -/
structure AccessOutputDetail where
  id : Nat
  reporting_effort_tags : List AccessTag
  database_release_tags : List AccessTag
  deriving DecidableEq

/-- The per-output user set built in `get_users_for_output_ids`: union over
both tag relationships of `get_all_users`. -/
def usersForOutput (o : AccessOutputDetail) : List String :=
  o.reporting_effort_tags.flatMap AccessTag.get_all_users ++
    o.database_release_tags.flatMap AccessTag.get_all_users

/-- `get_user_output_mapping.get_users_for_output_ids`: map each output whose
id is in the requested list to the set of usernames with access via its tags.
(The source builds a dict keyed by `output.id`; with unique ids this
association list is that dict.) -/
def get_users_for_output_ids (db : List AccessOutputDetail)
    (output_ids : List Nat) : List (Nat × List String) :=
  if output_ids.isEmpty then []
  else (db.filter (fun o => decide (o.id ∈ output_ids))).map
    (fun o => (o.id, usersForOutput o))

/-- `get_user_output_mapping.get_accessible_output_ids_for_reviewer`: keep the
output ids whose user set contains the reviewer's username. -/
def get_accessible_output_ids_for_reviewer (db : List AccessOutputDetail)
    (username : String) (output_ids : List Nat) : List Nat :=
  if output_ids.isEmpty then []
  else (get_users_for_output_ids db output_ids).filterMap
    (fun p => if username ∈ p.2 then some p.1 else none)

/-- `get_user_output_mapping.get_reviewer_accessible_output_ids_query`: first
collect the universe of tagged output ids (inner joins on either tag
relationship, union of the two sets), then filter by reviewer access. -/
def get_reviewer_accessible_output_ids_query (db : List AccessOutputDetail)
    (username : String) : List Nat :=
  let output_ids_with_re_tags :=
    (db.filter (fun o => !o.reporting_effort_tags.isEmpty)).map (·.id)
  let output_ids_with_db_tags :=
    (db.filter (fun o => !o.database_release_tags.isEmpty)).map (·.id)
  let all_tagged_output_ids := (output_ids_with_re_tags ++ output_ids_with_db_tags).dedup
  if all_tagged_output_ids.isEmpty then []
  else get_accessible_output_ids_for_reviewer db username all_tagged_output_ids

theorem mem_get_all_users (t : AccessTag) (username : String) :
    username ∈ t.get_all_users ↔
      username ∈ t.users ∨ ∃ dl ∈ t.distribution_lists, username ∈ dl.users := by
  constructor
  · intro h
    rcases List.mem_append.mp h with h1 | h2
    · exact Or.inl h1
    · obtain ⟨dl, hdl, hu⟩ := List.mem_flatMap.mp h2
      exact Or.inr ⟨dl, hdl, hu⟩
  · rintro (h1 | ⟨dl, hdl, hu⟩)
    · exact List.mem_append.mpr (Or.inl h1)
    · exact List.mem_append.mpr (Or.inr (List.mem_flatMap.mpr ⟨dl, hdl, hu⟩))

theorem mem_usersForOutput (o : AccessOutputDetail) (username : String) :
    username ∈ usersForOutput o ↔
      ((∃ t ∈ o.reporting_effort_tags ++ o.database_release_tags, username ∈ t.users) ∨
       (∃ t ∈ o.reporting_effort_tags ++ o.database_release_tags,
          ∃ dl ∈ t.distribution_lists, username ∈ dl.users)) := by
  constructor
  · intro h
    have hsplit : (∃ t ∈ o.reporting_effort_tags, username ∈ t.get_all_users) ∨
        (∃ t ∈ o.database_release_tags, username ∈ t.get_all_users) := by
      rcases List.mem_append.mp h with h1 | h2
      · exact Or.inl (List.mem_flatMap.mp h1)
      · exact Or.inr (List.mem_flatMap.mp h2)
    have hone : ∃ t ∈ o.reporting_effort_tags ++ o.database_release_tags,
        username ∈ t.get_all_users := by
      rcases hsplit with ⟨t, ht, hu⟩ | ⟨t, ht, hu⟩
      · exact ⟨t, List.mem_append.mpr (Or.inl ht), hu⟩
      · exact ⟨t, List.mem_append.mpr (Or.inr ht), hu⟩
    obtain ⟨t, ht, hu⟩ := hone
    rcases (mem_get_all_users t username).mp hu with h1 | ⟨dl, hdl, hu2⟩
    · exact Or.inl ⟨t, ht, h1⟩
    · exact Or.inr ⟨t, ht, dl, hdl, hu2⟩
  · intro h
    have hone : ∃ t ∈ o.reporting_effort_tags ++ o.database_release_tags,
        username ∈ t.get_all_users := by
      rcases h with ⟨t, ht, h1⟩ | ⟨t, ht, dl, hdl, hu⟩
      · exact ⟨t, ht, (mem_get_all_users t username).mpr (Or.inl h1)⟩
      · exact ⟨t, ht, (mem_get_all_users t username).mpr (Or.inr ⟨dl, hdl, hu⟩)⟩
    obtain ⟨t, ht, hu⟩ := hone
    rcases List.mem_append.mp ht with h1 | h2
    · exact List.mem_append.mpr (Or.inl (List.mem_flatMap.mpr ⟨t, h1, hu⟩))
    · exact List.mem_append.mpr (Or.inr (List.mem_flatMap.mpr ⟨t, h2, hu⟩))

/-- C3: a reviewer's accessible output set is exactly the union of (a) outputs
having a tag that lists the username directly and (b) outputs having a tag
through one of whose distribution lists the username is reachable.  The
`Nodup` hypothesis is the primary-key uniqueness of `OutputDetail.id`, under
which the association list built here coincides with the source's dict. -/
theorem accessibleOutputs_characterization_c3 (db : List AccessOutputDetail)
    (username : String) (_hnd : (db.map (·.id)).Nodup) (oid : Nat) :
    oid ∈ get_reviewer_accessible_output_ids_query db username ↔
      ∃ o ∈ db, o.id = oid ∧
        ((∃ t ∈ o.reporting_effort_tags ++ o.database_release_tags, username ∈ t.users) ∨
         (∃ t ∈ o.reporting_effort_tags ++ o.database_release_tags,
            ∃ dl ∈ t.distribution_lists, username ∈ dl.users)) := by
  unfold get_reviewer_accessible_output_ids_query
  constructor
  · intro hmem
    by_cases hAT : (((db.filter (fun o => !o.reporting_effort_tags.isEmpty)).map (·.id) ++
        (db.filter (fun o => !o.database_release_tags.isEmpty)).map (·.id)).dedup).isEmpty
    · simp only [hAT, if_pos] at hmem
      exact absurd hmem (List.not_mem_nil oid)
    · simp only [hAT, Bool.false_eq_true, if_false] at hmem
      rw [get_accessible_output_ids_for_reviewer, if_neg (by simp [hAT])] at hmem
      rw [List.mem_filterMap] at hmem
      obtain ⟨p, hp, hpo⟩ := hmem
      rw [get_users_for_output_ids, if_neg (by simp [hAT]), List.mem_map] at hp
      obtain ⟨o, ho, rfl⟩ := hp
      have hof := List.mem_filter.mp ho
      by_cases hu : username ∈ usersForOutput o
      · refine ⟨o, hof.1, ?_, (mem_usersForOutput o username).mp hu⟩
        simpa [hu] using hpo
      · simp [hu] at hpo
  · rintro ⟨o, ho, rfl, hprop⟩
    have hu : username ∈ usersForOutput o := (mem_usersForOutput o username).mpr hprop
    have htagged : (!o.reporting_effort_tags.isEmpty) = true ∨
        (!o.database_release_tags.isEmpty) = true := by
      have hsome : (∃ t, t ∈ o.reporting_effort_tags) ∨
          (∃ t, t ∈ o.database_release_tags) := by
        rcases hprop with ⟨t, ht, _⟩ | ⟨t, ht, _⟩ <;>
          rcases List.mem_append.mp ht with h | h
        · exact Or.inl ⟨t, h⟩
        · exact Or.inr ⟨t, h⟩
        · exact Or.inl ⟨t, h⟩
        · exact Or.inr ⟨t, h⟩
      rcases hsome with ⟨t, h⟩ | ⟨t, h⟩
      · exact Or.inl (by simp [List.isEmpty_iff, List.ne_nil_of_mem h])
      · exact Or.inr (by simp [List.isEmpty_iff, List.ne_nil_of_mem h])
    have hid : o.id ∈ (((db.filter (fun o => !o.reporting_effort_tags.isEmpty)).map (·.id) ++
        (db.filter (fun o => !o.database_release_tags.isEmpty)).map (·.id)).dedup) := by
      rw [List.mem_dedup, List.mem_append]
      rcases htagged with h | h
      · exact Or.inl (List.mem_map_of_mem _ (List.mem_filter.mpr ⟨ho, h⟩))
      · exact Or.inr (List.mem_map_of_mem _ (List.mem_filter.mpr ⟨ho, h⟩))
    have hne : ¬(((db.filter (fun o => !o.reporting_effort_tags.isEmpty)).map (·.id) ++
        (db.filter (fun o => !o.database_release_tags.isEmpty)).map (·.id)).dedup).isEmpty := by
      simp only [List.isEmpty_iff]
      intro hcon
      rw [hcon] at hid
      exact List.not_mem_nil _ hid
    simp only [Bool.not_eq_true] at hne ⊢
    rw [if_neg (by simp [hne])]
    rw [get_accessible_output_ids_for_reviewer,
      if_neg (by simpa [List.isEmpty_iff] using hne)]
    rw [List.mem_filterMap]
    refine ⟨(o.id, usersForOutput o), ?_, by simp [hu]⟩
    rw [get_users_for_output_ids, if_neg (by simpa [List.isEmpty_iff] using hne),
      List.mem_map]
    exact ⟨o, List.mem_filter.mpr ⟨ho, by simpa using hid⟩, rfl⟩

/-- Access scenario state: alice is a direct member of tag T1 on output O1;
bob is reachable only through distribution list D1 linked to tag T2 on O2. -/
def c3Db : List AccessOutputDetail :=
  [⟨1, [], [⟨1, "T1", ["alice"], []⟩]⟩,
   ⟨2, [], [⟨2, "T2", [], [⟨5, ["bob"]⟩]⟩]⟩]

/-- C3 witness: on the scenario state, output 1 is accessible to alice (via
the characterization theorem), and the computed accessible sets are exactly
`{O1}` for alice and `{O2}` for bob. -/
theorem accessibleOutputs_characterization_c3_witness :
    (c3Db.map (·.id)).Nodup ∧
    1 ∈ get_reviewer_accessible_output_ids_query c3Db "alice" ∧
    get_reviewer_accessible_output_ids_query c3Db "alice" = [1] ∧
    get_reviewer_accessible_output_ids_query c3Db "bob" = [2] := by
  refine ⟨by decide, ?_, by decide, by decide⟩
  exact (accessibleOutputs_characterization_c3 c3Db "alice" (by decide) 1).mpr (by decide)

/-! ## TagConflictValidator (`tag_utils.validate_dbr_tag_name_output_conflict`)
and the `dbr_tag` endpoints -/

/-- Helper for `splitOnChar`: accumulate the current segment (reversed) while
walking the characters. -/
def splitCharGo (sep : Char) : List Char → List Char → List String
  | [], acc => [String.mk acc.reverse]
  | c :: rest, acc =>
      if c = sep then String.mk acc.reverse :: splitCharGo sep rest []
      else splitCharGo sep rest (c :: acc)

/-- Split a string on a single separator character, keeping empty segments —
the semantics of Python's `str.split(sep)` for a one-character separator. -/
def splitOnChar (sep : Char) (s : String) : List String := splitCharGo sep s.data []

/-- Split a path on `/` — Python's `path.split("/")` and the segment
structure the SQL regexes operate on. -/
def splitPath (s : String) : List String := splitOnChar '/' s

/-- SQL `regexp_replace(path, '^[^/]+/[^/]+/', '')`: strip the first two
slash-separated segments when the path starts with two non-empty segments
each followed by a slash; otherwise (no regex match) the path is unchanged. -/
def stripFirstTwoSegments (s : String) : String :=
  match splitPath s with
  | p1 :: p2 :: rest =>
      if p1 ≠ "" ∧ p2 ≠ "" ∧ rest ≠ [] then String.intercalate "/" rest else s
  | _ => s

/-- SQL `regexp_replace(path, '/[^/]+$', '')`: strip a trailing slash plus
non-empty final segment; otherwise the path is unchanged. -/
def stripLastSegment (s : String) : String :=
  let parts := splitPath s
  if parts.length ≥ 2 ∧ parts.getLast? ≠ some "" then
    String.intercalate "/" parts.dropLast
  else s

/-- The middle file path computed inside the validator's SQL `WHERE` clause:
first two segments and last segment stripped. -/
def middleFilePath (s : String) : String :=
  stripLastSegment (stripFirstTwoSegments s)

/-- The middle path as the `create_tag` / `add_record` endpoints compute it in
Python before calling the validator: `"/".join(path.split("/")[2:-1])`. -/
def pyMiddlePath (s : String) : String :=
  String.intercalate "/" (((splitPath s).drop 2).dropLast)

/-- `app/models/compound.py` slice: the compound with its source pin. -/
structure Compound where
  id : Nat
  name : String
  source_id : Nat
  deriving DecidableEq

/-- `app/models/study.py` slice. -/
structure Study where
  id : Nat
  name : String
  compound_id : Nat
  deriving DecidableEq

/-- `app/models/database_release.py` slice. -/
structure DatabaseRelease where
  id : Nat
  name : String
  study_id : Nat
  deriving DecidableEq

/-- `app/models/database_release_tag.py` slice: provenance pin (`source_id`),
parent scope, direct users and linked distribution-list ids (the
`DatabaseReleaseTagDistributionListLink` rows). -/
structure DatabaseReleaseTag where
  id : Nat
  tag_name : String
  source_id : Nat
  database_release_id : Nat
  users : List String
  distribution_list_ids : List Nat
  deriving DecidableEq

/-- `app/models/output_detail.py` slice: identifier, file path and the
denormalized `docs_shared_as` draft marker. -/
structure OutputDetail where
  id : Nat
  identifier : String
  file_path : Option String
  docs_shared_as : Option String
  deriving DecidableEq

/-- The relational store slice touched by the tag endpoints: the scope chain,
tags, outputs, versions and the `OutputDetailDatabaseReleaseTagLink` rows
(`(output_id, database_release_tag_id)` pairs). -/
structure TagDb where
  compounds : List Compound
  studies : List Study
  database_releases : List DatabaseRelease
  database_release_tags : List DatabaseReleaseTag
  output_details : List OutputDetail
  output_detail_versions : List OutputDetailVersion
  output_detail_tag_links : List (Nat × Nat)
  deriving DecidableEq

/-- The conflict error raised by the validator (HTTP 400 with `field =
"tag_name"` and a message listing the payload identifiers). -/
structure ConflictError where
  field : String
  tag_name : String
  identifiers : List String
  deriving DecidableEq

/-- The rows returned by the validator's conflict query: versions joined to
their output, a tag whose id is a key of the version's tag map, and the
tag's scope chain, filtered by the `WHERE` conditions of the source query. -/
def conflicting_links (db : TagDb) (tag_name : String) (source_id : Nat)
    (payload_identifiers : List String)
    (database_release_name study_name compound_name : String)
    (file_paths : List String) : List OutputDetailVersion :=
  db.output_detail_versions.filter (fun odv =>
    db.output_details.any (fun od =>
      od.id == odv.output_id &&
      decide (od.identifier ∈ payload_identifiers) &&
      (match od.file_path with
       | some p => decide (middleFilePath p ∈ file_paths)
       | none => false) &&
      db.database_release_tags.any (fun t =>
        hstoreHasKey odv.tags (toString t.id) &&
        t.tag_name == tag_name &&
        t.source_id != source_id &&
        db.database_releases.any (fun dr =>
          dr.id == t.database_release_id &&
          dr.name == database_release_name &&
          db.studies.any (fun st =>
            st.id == dr.study_id &&
            st.name == study_name &&
            db.compounds.any (fun c =>
              c.id == st.compound_id &&
              c.name == compound_name))))))

/-- `tag_utils.validate_dbr_tag_name_output_conflict`: raise the conflict
error when the query returns any row, succeed otherwise. -/
def validate_dbr_tag_name_output_conflict (db : TagDb) (tag_name : String)
    (source_id : Nat) (payload_identifiers : List String)
    (database_release_name study_name compound_name : String)
    (file_paths : List String) : Except ConflictError Unit :=
  if (conflicting_links db tag_name source_id payload_identifiers
      database_release_name study_name compound_name file_paths).isEmpty then
    Except.ok ()
  else
    Except.error ⟨"tag_name", tag_name, payload_identifiers⟩

/-- Result of the `create_tag` endpoint: reference-validation failure (HTTP
400/404 before the conflict check), conflict abort (HTTP 400 from the
validator, no state mutated), or the mutated store. -/
inductive CreateTagResult where
  | notFound (msg : String)
  | conflict (e : ConflictError)
  | created (db : TagDb)
  deriving DecidableEq

/-- `dbr_tag.create_tag` (`POST /dbrs/tags`), store-level effect: resolve the
scope chain, validate referenced distribution lists and outputs, run the
conflict validator on the payload identifiers and the Python-computed middle
paths of the outputs' versions, and only then insert the tag row and add its
key to the latest version of each linked output (the draft-status update of
the DOCS branch is orthogonal to the claims and omitted; no
`OutputDetailDatabaseReleaseTagLink` rows are created by this endpoint). -/
def create_tag (db : TagDb) (new_tag_id : Nat) (database_release_id : Nat)
    (tag_name : String) (users : List String) (distribution_list_ids : List Nat)
    (output_ids : List Nat) : CreateTagResult :=
  match db.database_releases.find? (fun dr => dr.id == database_release_id) with
  | none => CreateTagResult.notFound "DatabaseRelease not found"
  | some dr =>
    match db.studies.find? (fun st => st.id == dr.study_id) with
    | none => CreateTagResult.notFound "Study not found"
    | some st =>
      match db.compounds.find? (fun c => c.id == st.compound_id) with
      | none => CreateTagResult.notFound "Compound not found"
      | some c =>
        let mkTag : TagDb := { db with
          database_release_tags := db.database_release_tags ++
            [⟨new_tag_id, tag_name, c.source_id, database_release_id, users,
              distribution_list_ids⟩],
          output_detail_versions := db.output_detail_versions.map (fun v =>
            if decide (v.output_id ∈ output_ids) && v.is_latest then
              addTagToVersion new_tag_id tag_name v
            else v) }
        if output_ids.isEmpty then CreateTagResult.created mkTag
        else if output_ids.any (fun oid => !(db.output_details.any (·.id == oid))) then
          CreateTagResult.notFound "OutputDetail IDs not found"
        else
          let payload_identifiers :=
            (db.output_details.filter (fun od => decide (od.id ∈ output_ids))).map
              (·.identifier)
          let file_paths :=
            ((db.output_detail_versions.filter
                (fun v => decide (v.output_id ∈ output_ids))).filterMap
              (fun v => v.file_path.map pyMiddlePath)).dedup
          match validate_dbr_tag_name_output_conflict db tag_name c.source_id
            payload_identifiers dr.name st.name c.name file_paths with
          | Except.error e => CreateTagResult.conflict e
          | Except.ok _ => CreateTagResult.created mkTag

/-- The join/filter conditions of the validator's conflict query, as a
proposition over the store. -/
def conflictMatchExists (db : TagDb) (tag_name : String) (source_id : Nat)
    (payload_identifiers : List String)
    (database_release_name study_name compound_name : String)
    (file_paths : List String) : Prop :=
  ∃ odv ∈ db.output_detail_versions, ∃ od ∈ db.output_details,
    od.id = odv.output_id ∧ od.identifier ∈ payload_identifiers ∧
    (∃ p ∈ od.file_path.toList, middleFilePath p ∈ file_paths) ∧
    ∃ t ∈ db.database_release_tags, hstoreHasKey odv.tags (toString t.id) = true ∧
      t.tag_name = tag_name ∧ t.source_id ≠ source_id ∧
      ∃ dr ∈ db.database_releases, dr.id = t.database_release_id ∧
        dr.name = database_release_name ∧
        ∃ st ∈ db.studies, st.id = dr.study_id ∧ st.name = study_name ∧
          ∃ c ∈ db.compounds, c.id = st.compound_id ∧ c.name = compound_name

theorem conflicting_links_ne_nil_iff (db : TagDb) (tag_name : String)
    (source_id : Nat) (payload_identifiers : List String)
    (database_release_name study_name compound_name : String)
    (file_paths : List String) :
    (conflicting_links db tag_name source_id payload_identifiers
        database_release_name study_name compound_name file_paths).isEmpty = false ↔
      conflictMatchExists db tag_name source_id payload_identifiers
        database_release_name study_name compound_name file_paths := by
  rw [conflicting_links, conflictMatchExists]
  rw [List.isEmpty_eq_false_iff_exists_mem]
  constructor
  · rintro ⟨odv, hodv⟩
    have hm := List.mem_filter.mp hodv
    refine ⟨odv, hm.1, ?_⟩
    have hpred := hm.2
    rw [List.any_eq_true] at hpred
    obtain ⟨od, hod, hodp⟩ := hpred
    simp only [Bool.and_eq_true, beq_iff_eq, decide_eq_true_eq, bne_iff_ne,
      List.any_eq_true] at hodp
    obtain ⟨⟨⟨hid, hident⟩, hpath⟩, t, ht, ⟨⟨hkey, hname⟩, hsrc⟩, dr, hdr,
      ⟨hdrid, hdrname⟩, st, hst, ⟨hstid, hstname⟩, c, hc, hcid, hcname⟩ := hodp
    refine ⟨od, hod, hid, hident, ?_, t, ht, hkey, hname, hsrc, dr, hdr, hdrid,
      hdrname, st, hst, hstid, hstname, c, hc, hcid, hcname⟩
    cases hfp : od.file_path with
    | none => rw [hfp] at hpath; exact absurd hpath (by simp)
    | some p =>
        rw [hfp] at hpath
        exact ⟨p, by simp, by simpa using hpath⟩
  · rintro ⟨odv, hodv, od, hod, hid, hident, ⟨p, hfp, hmid⟩, t, ht, hkey, hname,
      hsrc, dr, hdr, hdrid, hdrname, st, hst, hstid, hstname, c, hc, hcid, hcname⟩
    refine ⟨odv, List.mem_filter.mpr ⟨hodv, ?_⟩⟩
    rw [List.any_eq_true]
    refine ⟨od, hod, ?_⟩
    simp only [Bool.and_eq_true, beq_iff_eq, decide_eq_true_eq, bne_iff_ne,
      List.any_eq_true]
    refine ⟨⟨⟨hid, hident⟩, ?_⟩, t, ht, ⟨⟨hkey, hname⟩, hsrc⟩, dr, hdr,
      ⟨hdrid, hdrname⟩, st, hst, ⟨hstid, hstname⟩, c, hc, hcid, hcname⟩
    rcases hq : od.file_path with _ | q
    · rw [hq] at hfp
      simp [Option.toList] at hfp
    · rw [hq] at hfp
      simp only [Option.toList, List.mem_singleton] at hfp
      subst hfp
      simpa using hmid

instance conflictMatchExistsDecidable (db : TagDb) (tag_name : String)
    (source_id : Nat) (payload_identifiers : List String)
    (database_release_name study_name compound_name : String)
    (file_paths : List String) :
    Decidable (conflictMatchExists db tag_name source_id payload_identifiers
      database_release_name study_name compound_name file_paths) :=
  decidable_of_iff _ (conflicting_links_ne_nil_iff db tag_name source_id
    payload_identifiers database_release_name study_name compound_name file_paths)

/-- C4: the conflict validator errors — with `field = "tag_name"` and the
payload identifiers — exactly when some version row satisfies all the join
conditions (same tag name, different source id, matching scope names, output
identifier among the candidates, middle file path among the supplied middle
segments); it succeeds exactly when no such row exists; and when the
validator errors on the arguments `create_tag` derives for it, the endpoint
returns that conflict and no mutated store (the tag row and tag-map inserts
happen only in the `created` result). -/
theorem conflict_validator_c4 (db : TagDb) (tag_name : String) (source_id : Nat)
    (payload_identifiers : List String)
    (database_release_name study_name compound_name : String)
    (file_paths : List String) :
    (validate_dbr_tag_name_output_conflict db tag_name source_id
        payload_identifiers database_release_name study_name compound_name
        file_paths = Except.error ⟨"tag_name", tag_name, payload_identifiers⟩ ↔
      conflictMatchExists db tag_name source_id payload_identifiers
        database_release_name study_name compound_name file_paths) ∧
    (validate_dbr_tag_name_output_conflict db tag_name source_id
        payload_identifiers database_release_name study_name compound_name
        file_paths = Except.ok () ↔
      ¬ conflictMatchExists db tag_name source_id payload_identifiers
        database_release_name study_name compound_name file_paths) ∧
    (∀ (new_tag_id database_release_id : Nat) (users : List String)
        (distribution_list_ids output_ids : List Nat)
        (dr : DatabaseRelease) (st : Study) (c : Compound) (e : ConflictError),
      db.database_releases.find? (fun x => x.id == database_release_id) = some dr →
      db.studies.find? (fun x => x.id == dr.study_id) = some st →
      db.compounds.find? (fun x => x.id == st.compound_id) = some c →
      output_ids.isEmpty = false →
      output_ids.any (fun oid => !(db.output_details.any (·.id == oid))) = false →
      validate_dbr_tag_name_output_conflict db tag_name c.source_id
        ((db.output_details.filter (fun od => decide (od.id ∈ output_ids))).map
          (·.identifier))
        dr.name st.name c.name
        (((db.output_detail_versions.filter
            (fun v => decide (v.output_id ∈ output_ids))).filterMap
          (fun v => v.file_path.map pyMiddlePath)).dedup) = Except.error e →
      create_tag db new_tag_id database_release_id tag_name users
        distribution_list_ids output_ids = CreateTagResult.conflict e) := by
  refine ⟨?_, ?_, ?_⟩
  · rw [validate_dbr_tag_name_output_conflict]
    constructor
    · intro h
      by_cases he : (conflicting_links db tag_name source_id payload_identifiers
          database_release_name study_name compound_name file_paths).isEmpty
      · rw [if_pos he] at h
        exact absurd h (by simp)
      · exact (conflicting_links_ne_nil_iff db tag_name source_id
          payload_identifiers database_release_name study_name compound_name
          file_paths).mp (by simpa using he)
    · intro h
      have hne := (conflicting_links_ne_nil_iff db tag_name source_id
        payload_identifiers database_release_name study_name compound_name
        file_paths).mpr h
      rw [if_neg (by simp [hne])]
  · rw [validate_dbr_tag_name_output_conflict]
    constructor
    · intro h
      by_cases he : (conflicting_links db tag_name source_id payload_identifiers
          database_release_name study_name compound_name file_paths).isEmpty
      · intro hcon
        have hne := (conflicting_links_ne_nil_iff db tag_name source_id
          payload_identifiers database_release_name study_name compound_name
          file_paths).mpr hcon
        rw [hne] at he
        exact absurd he (by simp)
      · rw [if_neg he] at h
        exact absurd h (by simp)
    · intro h
      have he : (conflicting_links db tag_name source_id payload_identifiers
          database_release_name study_name compound_name file_paths).isEmpty = true := by
        by_contra hcon
        exact h ((conflicting_links_ne_nil_iff db tag_name source_id
          payload_identifiers database_release_name study_name compound_name
          file_paths).mp (by simpa using hcon))
      rw [if_pos he]
  · intro new_tag_id database_release_id users distribution_list_ids output_ids
      dr st c e hdr hst hc hne hmiss hval
    simp only [create_tag, hdr, hst, hc, hne, Bool.false_eq_true, if_false,
      hmiss, hval]

/-- The conflict scenario store: tag "ADR_2024" with source 1 is attached (via
the version tag map) to output "OUT-1" at path
`PROD/CompoundX/StudyY/DBR1/file.pdf`; the compound's current source is 2, so
a fresh attach of the same name resolves a different source id. -/
def c4Db : TagDb :=
  { compounds := [⟨1, "CompoundX", 2⟩],
    studies := [⟨1, "StudyY", 1⟩],
    database_releases := [⟨1, "DBR1", 1⟩],
    database_release_tags := [⟨1, "ADR_2024", 1, 1, ["alice"], []⟩],
    output_details := [⟨10, "OUT-1", some "PROD/CompoundX/StudyY/DBR1/file.pdf", none⟩],
    output_detail_versions :=
      [⟨1, 10, 1, 0, 0, some "PROD/CompoundX/StudyY/DBR1/file.pdf", true,
        [("1", "ADR_2024")]⟩],
    output_detail_tag_links := [(10, 1)] }

/-- C4 witness: attaching "ADR_2024" with source 2 to "OUT-1" with middle path
`StudyY/DBR1` raises the conflict listing `["OUT-1"]`, and `create_tag` aborts
with that conflict. -/
theorem conflict_validator_c4_witness :
    validate_dbr_tag_name_output_conflict c4Db "ADR_2024" 2 ["OUT-1"] "DBR1"
        "StudyY" "CompoundX" ["StudyY/DBR1"] =
      Except.error ⟨"tag_name", "ADR_2024", ["OUT-1"]⟩ ∧
    create_tag c4Db 2 1 "ADR_2024" ["bob"] [] [10] =
      CreateTagResult.conflict ⟨"tag_name", "ADR_2024", ["OUT-1"]⟩ := by
  constructor
  · exact (conflict_validator_c4 c4Db "ADR_2024" 2 ["OUT-1"] "DBR1" "StudyY"
      "CompoundX" ["StudyY/DBR1"]).1.mpr (by decide)
  · exact (conflict_validator_c4 c4Db "ADR_2024" 0 [] "" "" "" []).2.2
      2 1 ["bob"] [] [10] ⟨1, "DBR1", 1⟩ ⟨1, "StudyY", 1⟩ ⟨1, "CompoundX", 2⟩
      ⟨"tag_name", "ADR_2024", ["OUT-1"]⟩
      (by decide) (by decide) (by decide) (by decide) (by decide) (by rfl)

/-! ## Tag deletion (`dbr_tag.delete_tag`) -/

/-- `dbr_tag.delete_tag` (`DELETE /dbrs/tags/{tag_id}`), store-level effect:
404 (`none`) if the tag does not exist; otherwise remove the key `str(tag_id)`
from every version (latest or historical) carrying it, delete the tag row and
(ORM cascade on the many-to-many `secondary` tables) its link rows.  The
endpoint never touches `OutputDetail.docs_shared_as`:
`clear_draft_status_from_orphan` is called only by the record-removal
endpoint (`remove_record`), not here. -/
def delete_tag (db : TagDb) (tag_id : Nat) : Option TagDb :=
  if db.database_release_tags.any (fun t => t.id == tag_id) then
    some { db with
      output_detail_versions :=
        db.output_detail_versions.map (removeTagFromVersion tag_id),
      database_release_tags :=
        db.database_release_tags.filter (fun t => !(t.id == tag_id)),
      output_detail_tag_links :=
        db.output_detail_tag_links.filter (fun l => !(l.2 == tag_id)) }
  else none

/-- `clear_draft_status_from_orphan` (`tag_utils.py`): clear `docs_shared_as`
on every requested output that has zero linked database-release tags.  Linked
tags are the `OutputDetailDatabaseReleaseTagLink` rows. -/
def clear_draft_status_from_orphan (db : TagDb) (output_detail_ids : List Nat) :
    TagDb :=
  { db with
    output_details := db.output_details.map (fun od =>
      if decide (od.id ∈ output_detail_ids) &&
          !(db.output_detail_tag_links.any (fun l => l.1 == od.id)) then
        { od with docs_shared_as := none }
      else od) }

/-- The tag-deletion scenario store: output 10 carries tag 1 as its only tag
and has `docs_shared_as = "PROD"` set. -/
def c8Db : TagDb :=
  { compounds := [⟨1, "CompoundX", 1⟩],
    studies := [⟨1, "StudyY", 1⟩],
    database_releases := [⟨1, "DBR1", 1⟩],
    database_release_tags := [⟨1, "ADR_2024", 1, 1, ["alice"], []⟩],
    output_details := [⟨10, "OUT-1", some "PROD/CompoundX/StudyY/DBR1/file.pdf",
      some "PROD"⟩],
    output_detail_versions :=
      [⟨1, 10, 1, 0, 0, some "PROD/CompoundX/StudyY/DBR1/file.pdf", true,
        [("1", "ADR_2024")]⟩],
    output_detail_tag_links := [(10, 1)] }

/-- C8 counterexample: deleting output 10's only tag removes the tag key from
every version, but the output — now with zero tags — still has
`docs_shared_as = "PROD"`: the claimed draft-marker clearing does not happen
on tag deletion. -/
theorem delete_tag_clears_draft_counterexample_c8 :
    ¬ (∀ db', delete_tag c8Db 1 = some db' →
        (∀ v ∈ db'.output_detail_versions,
          hstoreHasKey v.tags (toString 1) = false) ∧
        (∀ od ∈ db'.output_details,
          (∀ l ∈ db'.output_detail_tag_links, l.1 ≠ od.id) →
            od.docs_shared_as = none)) := by
  intro h
  have := h { c8Db with
      output_detail_versions :=
        [⟨1, 10, 1, 0, 0, some "PROD/CompoundX/StudyY/DBR1/file.pdf", true, []⟩],
      database_release_tags := [],
      output_detail_tag_links := [] } (by rfl)
  have hod := this.2 ⟨10, "OUT-1", some "PROD/CompoundX/StudyY/DBR1/file.pdf",
    some "PROD"⟩ (by decide) (by decide)
  exact absurd hod (by decide)

/-- C8 amended: explicit tag deletion removes the tag's key from every version
(latest or historical) that carries it and deletes the tag row and its links,
but it leaves `docs_shared_as` untouched on every output file — the
draft-marker clearing for zero-tag outputs runs only in the record-removal
endpoint (`remove_record` → `clear_draft_status_from_orphan`), not on tag
deletion. -/
theorem delete_tag_cascade_c8 (db : TagDb) (tag_id : Nat) (db' : TagDb)
    (h : delete_tag db tag_id = some db') :
    (∀ v ∈ db'.output_detail_versions,
      hstoreHasKey v.tags (toString tag_id) = false) ∧
    db'.output_details = db.output_details ∧
    (∀ t ∈ db'.database_release_tags, t.id ≠ tag_id) ∧
    (∀ l ∈ db'.output_detail_tag_links, l.2 ≠ tag_id) := by
  rw [delete_tag] at h
  by_cases hex : db.database_release_tags.any (fun t => t.id == tag_id)
  · rw [if_pos hex] at h
    obtain rfl : _ = db' := Option.some.inj h
    refine ⟨?_, rfl, ?_, ?_⟩
    · intro v hv
      rw [List.mem_map] at hv
      obtain ⟨v0, _, rfl⟩ := hv
      rw [removeTagFromVersion]
      by_cases hk : hstoreHasKey v0.tags (toString tag_id) = true
      · rw [if_pos hk]
        exact hstoreHasKey_erase v0.tags (toString tag_id)
      · rw [if_neg hk]
        simpa using hk
    · intro t ht
      have := (List.mem_filter.mp ht).2
      simpa using this
    · intro l hl
      have := (List.mem_filter.mp hl).2
      simpa using this
  · rw [if_neg hex] at h
    exact absurd h (by simp)

/-- C8 witness: the amended cascade evaluated on the scenario store. -/
theorem delete_tag_cascade_c8_witness :
    delete_tag c8Db 1 = some { c8Db with
      output_detail_versions :=
        [⟨1, 10, 1, 0, 0, some "PROD/CompoundX/StudyY/DBR1/file.pdf", true, []⟩],
      database_release_tags := [],
      output_detail_tag_links := [] } ∧
    ({ c8Db with
      output_detail_versions :=
        [⟨1, 10, 1, 0, 0, some "PROD/CompoundX/StudyY/DBR1/file.pdf", true, []⟩],
      database_release_tags := [],
      output_detail_tag_links := [] } : TagDb).output_details = c8Db.output_details := by
  refine ⟨by rfl, ?_⟩
  exact (delete_tag_cascade_c8 c8Db 1 _ (by rfl)).2.1

/-! ## AuditDiffEngine (`audit_log_middleware.py`) -/

/-- A Python value as it appears in the middleware's snapshot dicts.  `disp`
components model the `str(value)` rendering used by the diff comparison, the
other component the piece `to_serializable` / `json.dumps` extracts:
`penum` carries `str(enum)` and `enum.value`, `pdatetime` carries `str(dt)`
and `dt.isoformat()`, `pdecimal` carries `str(d)` and the `float(d)`
rendering, `plist` abstracts the m2m edge lists (display and JSON forms). -/
inductive PyVal where
  | pnone
  | pstr (s : String)
  | pint (n : Int)
  | pbool (b : Bool)
  | pfloat (r : String)
  | penum (disp : String) (value : String)
  | pdatetime (disp : String) (iso : String)
  | pdecimal (disp : String) (floatRepr : String)
  | plist (disp : String) (json : String)
  deriving DecidableEq

/-- Python `str(value)`, as used in the middleware's `str(old_val) !=
str(new_val)` comparison. -/
def pyStr : PyVal → String
  | .pnone => "None"
  | .pstr s => s
  | .pint n => toString n
  | .pbool b => if b then "True" else "False"
  | .pfloat r => r
  | .penum d _ => d
  | .pdatetime d _ => d
  | .pdecimal d _ => d
  | .plist d _ => d

/-- `audit_log_middleware.to_serializable`: enums become their value,
date/time values their ISO-8601 string, decimals a float; everything else is
passed through (the bytes branch has no counterpart in the snapshot dicts). -/
def to_serializable : PyVal → PyVal
  | .penum _ v => .pstr v
  | .pdatetime _ iso => .pstr iso
  | .pdecimal _ f => .pfloat f
  | v => v

/-- `json.dumps` on a value already reduced to JSON-native types. -/
def jsonNative : PyVal → String
  | .pnone => "null"
  | .pstr s => "\"" ++ s ++ "\""
  | .pint n => toString n
  | .pbool b => if b then "true" else "false"
  | .pfloat r => r
  | .penum _ v => "\"" ++ v ++ "\""
  | .pdatetime _ iso => "\"" ++ iso ++ "\""
  | .pdecimal _ f => f
  | .plist _ j => j

/-- `json.dumps(value, default=to_serializable)`. -/
def jsonDumps (v : PyVal) : String := jsonNative (to_serializable v)

/-- A snapshot dict (`old_data` / `new_data`): field name to value. -/
abbrev Snapshot := List (String × PyVal)

/-- Python `dict.get(field)`: `None` when the key is absent. -/
def dictGet (d : Snapshot) (field : String) : Option PyVal :=
  (d.find? (fun p => p.1 == field)).map (·.2)

/-- `str` applied to a `dict.get` result: a missing key and a stored `None`
both render as `"None"`. -/
def pyStrOpt : Option PyVal → String
  | none => "None"
  | some v => pyStr v

/-- `json.dumps(val, default=to_serializable) if val is not None else None`. -/
def serializeOpt : Option PyVal → Option String
  | none => none
  | some .pnone => none
  | some v => some (jsonDumps v)

/-- `app/models/audit_log.py` `AuditLog` row as built by the middleware. -/
structure AuditLogEntry where
  user_name : String
  action : String
  timestamp : String
  object_type : String
  object_key : Option String
  object_property : Option String
  old_value : Option String
  new_value : Option String
  deriving DecidableEq

/-- The CREATE/UPDATE/SYNC diff loop of `audit_middleware` (lines 249-269):
for each field in the union of the old and new snapshot key sets, emit one
entry when `str(old) != str(new)`, carrying both values serialized. -/
def build_audit_logs (user action timestamp object_type : String)
    (object_key : Option String) (old_data new_data : Snapshot) :
    List AuditLogEntry :=
  ((old_data.map Prod.fst ++ new_data.map Prod.fst).dedup).filterMap (fun field =>
    let old_val := dictGet old_data field
    let new_val := dictGet new_data field
    if pyStrOpt old_val ≠ pyStrOpt new_val then
      some { user_name := user, action := action, timestamp := timestamp,
             object_type := object_type, object_key := object_key,
             object_property := some field,
             old_value := serializeOpt old_val,
             new_value := serializeOpt new_val }
    else none)

theorem countP_filterMap_entry (l : List String) (hl : l.Nodup)
    (g : String → Option AuditLogEntry) (field : String) (c : Prop)
    [Decidable c]
    (hprop : ∀ f e, g f = some e → e.object_property = some f)
    (hcond : (g field).isSome = true ↔ c) :
    (l.filterMap g).countP (fun e => decide (e.object_property = some field)) =
      if field ∈ l ∧ c then 1 else 0 := by
  induction l with
  | nil => simp
  | cons a t ih =>
      have hnd := List.nodup_cons.mp hl
      rw [List.filterMap_cons]
      cases hga : g a with
      | none =>
          rw [ih hnd.2]
          by_cases hfa : field = a
          · subst hfa
            have hnt : field ∉ t := hnd.1
            have hnc : ¬c := by
              rw [← hcond, hga]
              simp
            simp [hnt, hnc]
          · simp [List.mem_cons, hfa]
      | some e =>
          rw [List.countP_cons, ih hnd.2]
          have hpe := hprop a e hga
          by_cases hfa : field = a
          · subst hfa
            have hnt : field ∉ t := hnd.1
            have hcc : c := by
              rw [← hcond, hga]
              rfl
            simp [hnt, hcc, hpe]
          · have hne : ¬(e.object_property = some field) := by
              rw [hpe]
              intro hcon
              exact hfa (Option.some.inj hcon).symm
            simp [List.mem_cons, hfa, hne]

/-- C5: for a mutating request in the CREATE/UPDATE/SYNC branch, the diff loop
emits exactly one entry per field name in the union of the old/new snapshot
key sets whose `str(old)` differs from `str(new)` — and none for a field
whose stringified values agree — and every emitted entry for a field carries
that field with the old and new values serialized through
`json.dumps(·, default=to_serializable)` (enums as their value, timestamps as
ISO-8601, decimals as floating point). -/
theorem audit_diff_per_field_c5 (user action timestamp object_type : String)
    (object_key : Option String) (old_data new_data : Snapshot) (field : String) :
    ((build_audit_logs user action timestamp object_type object_key old_data
        new_data).countP (fun e => decide (e.object_property = some field)) =
      if field ∈ old_data.map Prod.fst ++ new_data.map Prod.fst ∧
          pyStrOpt (dictGet old_data field) ≠ pyStrOpt (dictGet new_data field)
      then 1 else 0) ∧
    (∀ e ∈ build_audit_logs user action timestamp object_type object_key
        old_data new_data,
      e.object_property = some field →
        e.old_value = serializeOpt (dictGet old_data field) ∧
        e.new_value = serializeOpt (dictGet new_data field)) := by
  constructor
  · rw [build_audit_logs,
      countP_filterMap_entry _ (List.nodup_dedup _) _ field
        (pyStrOpt (dictGet old_data field) ≠ pyStrOpt (dictGet new_data field))
        (by
          intro f e hg
          by_cases hc : pyStrOpt (dictGet old_data f) ≠ pyStrOpt (dictGet new_data f)
          · simp only [if_pos hc] at hg
            cases Option.some.inj hg
            rfl
          · simp only [if_neg hc] at hg
            exact absurd hg (by simp))
        (by
          by_cases hc : pyStrOpt (dictGet old_data field) ≠ pyStrOpt (dictGet new_data field)
          · simp only [if_pos hc]
            simpa using hc
          · simp only [if_neg hc]
            simpa using hc)]
    by_cases hm : field ∈ old_data.map Prod.fst ++ new_data.map Prod.fst
    · have h1 : field ∈ (old_data.map Prod.fst ++ new_data.map Prod.fst).dedup :=
        List.mem_dedup.mpr hm
      by_cases hc : pyStrOpt (dictGet old_data field) ≠ pyStrOpt (dictGet new_data field)
      · rw [if_pos ⟨h1, hc⟩, if_pos ⟨hm, hc⟩]
      · rw [if_neg (fun h => hc h.2), if_neg (fun h => hc h.2)]
    · have h1 : field ∉ (old_data.map Prod.fst ++ new_data.map Prod.fst).dedup :=
        fun h => hm (List.mem_dedup.mp h)
      rw [if_neg (fun h => h1 h.1), if_neg (fun h => hm h.1)]
  · intro e he hef
    rw [build_audit_logs, List.mem_filterMap] at he
    obtain ⟨f, _, hg⟩ := he
    by_cases hc : pyStrOpt (dictGet old_data f) ≠ pyStrOpt (dictGet new_data f)
    · simp only [if_pos hc] at hg
      cases Option.some.inj hg
      have : f = field := by
        simpa using hef
      subst this
      exact ⟨rfl, rfl⟩
    · simp only [if_neg hc] at hg
      exact absurd hg (by simp)

/-- A concrete old snapshot for the C5 witness: tag renamed, reason equal. -/
def c5Old : Snapshot := [("tag_name", .pstr "A"), ("reason", .penum "ReasonEnum.REVIEW" "REVIEW")]

/-- A concrete new snapshot for the C5 witness. -/
def c5New : Snapshot := [("tag_name", .pstr "B"), ("reason", .penum "ReasonEnum.REVIEW" "REVIEW")]

/-- C5 witness: on the concrete snapshots, the changed field produces exactly
one entry, the unchanged field none, and the entry carries the serialized
values. -/
theorem audit_diff_per_field_c5_witness :
    ((build_audit_logs "u" "UPDATE" "t0" "database_release_tag" (some "1")
        c5Old c5New).countP
      (fun e => decide (e.object_property = some "tag_name")) = 1) ∧
    ((build_audit_logs "u" "UPDATE" "t0" "database_release_tag" (some "1")
        c5Old c5New).countP
      (fun e => decide (e.object_property = some "reason")) = 0) := by
  constructor
  · exact ((audit_diff_per_field_c5 "u" "UPDATE" "t0" "database_release_tag"
      (some "1") c5Old c5New "tag_name").1).trans (by decide)
  · exact ((audit_diff_per_field_c5 "u" "UPDATE" "t0" "database_release_tag"
      (some "1") c5Old c5New "reason").1).trans (by decide)

/-! ## SharedMetricsReconciler (`shared_folder_metrics.py`)

The reconciler functions are embedded over the values
`extract_metrics_from_audit_logs` produces from one audit batch (user lists,
distribution-list ids and `output_details` dicts already JSON-decoded;
timestamps as abstract instants).  Python set values become lists with
`dedup`; set union/difference become the corresponding list operations on
membership. -/

/-- ASCII lower-casing of a character (`str.lower()` on the ASCII strings the
reconciler compares). -/
def asciiLowerChar (c : Char) : Char :=
  if 'A' ≤ c ∧ c ≤ 'Z' then Char.ofNat (c.toNat + 32) else c

/-- Python `str.lower()` restricted to ASCII. -/
def pyLower (s : String) : String := String.mk (s.data.map asciiLowerChar)

/-- Digits-to-number accumulator for `pyParseDigits`. -/
def digitsToNat : List Char → Nat → Nat
  | [], acc => acc
  | c :: rest, acc => digitsToNat rest (acc * 10 + (c.toNat - 48))

/-- Python `int(p)` on the digit strings the reconciler parses
(`p.isdigit()`-guarded in `_map_versions`, try/except `_parse_int` in
`build_shared_metric_data`): `none` unless the string is non-empty and all
digits. -/
def pyParseDigits (s : String) : Option Nat :=
  if s.data ≠ [] ∧ s.data.all Char.isDigit then some (digitsToNat s.data 0) else none

/-- One element of the audit m2m `output_details` JSON list:
`{"id": ..., "version": ...}` (the `source_name` component is unused by the
reconciler). -/
structure OutputInfo where
  id : Nat
  version : Option String
  deriving DecidableEq

/-- `OutputDetail` slice consumed by `_get_output_details_by_ids` /
`build_shared_metric_data`. -/
structure MetricOutputDetail where
  id : Nat
  compound_name : Option String
  study_name : Option String
  database_release_name : Option String
  reporting_effort_name : Option String
  adr_filepath : Option String
  deriving DecidableEq

/-- `app/models/shared_folder_metrics.py` `SharedFolderMetric` row, the fields
the reconciler reads or writes.  `tag_id` stays optional (nullable column);
`output_detail_id` and `file_shared_to` are always set by
`build_shared_metric_data`. -/
structure SharedFolderMetric where
  tag_id : Option Nat
  tag_name : Option String
  comment : Option String
  output_detail_id : Nat
  file_shared_to : String
  file_shared_by : Option String
  file_shared : Option String
  file_name : Option String
  compound : Option String
  study : Option String
  dbr : Option String
  re : Option String
  file_version_major : Option Nat
  file_version_minor : Option Nat
  file_version_patch : Option Nat
  file_shared_from_ts : Option Nat
  file_shared_to_ts : Option Nat
  deriving DecidableEq, Inhabited

/-- The `metrics` dict built by `extract_metrics_from_audit_logs` and mutated
in place by the helpers.  For `comment` and `tag_name` the outer `Option`
models key presence in the dict (the helpers test `"comment" not in metrics`)
and the inner `Option` the possibly-`None` value. -/
structure MetricsBase where
  file_shared_from_ts : Option Nat
  tag_id : Option Nat
  comment : Option (Option String)
  tag_name : Option (Option String)
  file_shared_by : Option String
  deriving DecidableEq

/-- `_get_users_from_distribution_lists`: the set of users of the referenced
distribution lists. -/
def get_users_from_distribution_lists (dls_db : List DistributionList)
    (distribution_list_ids : List Nat) : List String :=
  ((dls_db.filter (fun dl => decide (dl.id ∈ distribution_list_ids))).flatMap
    (·.users)).dedup

/-- `_get_output_details_by_ids` plus the `output_map.get(str(id))` lookup:
resolve an output by id. -/
def lookupOutput (outputs_db : List MetricOutputDetail) (oid : Nat) :
    Option MetricOutputDetail :=
  outputs_db.find? (fun od => od.id == oid)

/-- `build_shared_metric_data`: one metrics row from the base dict, the
resolved output, the user and the audit output-info dict; `file_shared_to_ts`
is left at the model default `NULL`. -/
def build_shared_metric_data (metrics : MetricsBase)
    (output_detail : MetricOutputDetail) (user : String)
    (output_info : OutputInfo) : SharedFolderMetric :=
  let version_parts : List String :=
    match output_info.version with
    | some s => if s ≠ "" ∧ pyLower s ≠ "none" then splitOnChar '.' s else []
    | none => []
  { tag_id := metrics.tag_id,
    tag_name := metrics.tag_name.bind id,
    comment := metrics.comment.bind id,
    output_detail_id := output_detail.id,
    file_shared_to := user,
    file_shared_by := metrics.file_shared_by,
    file_shared := output_detail.adr_filepath,
    file_name := output_detail.adr_filepath.map (fun p => (splitPath p).getLastD ""),
    compound := output_detail.compound_name,
    study := output_detail.study_name,
    dbr := output_detail.database_release_name,
    re := output_detail.reporting_effort_name,
    file_version_major := (version_parts.get? 0).bind pyParseDigits,
    file_version_minor := (version_parts.get? 1).bind pyParseDigits,
    file_version_patch := (version_parts.get? 2).bind pyParseDigits,
    file_shared_from_ts := metrics.file_shared_from_ts,
    file_shared_to_ts := none }

/-- `_generate_shared_metrics`, inner loop over the outputs for one user,
threading the `seen` (user, output-id) set. -/
def genForUser (outputs_db : List MetricOutputDetail) (metrics : MetricsBase)
    (user : String) : List OutputInfo → List (String × Nat) →
      (List SharedFolderMetric × List (String × Nat))
  | [], seen => ([], seen)
  | o :: rest, seen =>
      if (user, o.id) ∈ seen then genForUser outputs_db metrics user rest seen
      else
        let seen1 := (user, o.id) :: seen
        match lookupOutput outputs_db o.id with
        | none => genForUser outputs_db metrics user rest seen1
        | some od =>
            let m := build_shared_metric_data metrics od user o
            let rec_rest := genForUser outputs_db metrics user rest seen1
            (m :: rec_rest.1, rec_rest.2)

/-- `_generate_shared_metrics`, outer loop over the users. -/
def genForUsers (outputs_db : List MetricOutputDetail) (metrics : MetricsBase) :
    List String → List OutputInfo → List (String × Nat) → List SharedFolderMetric
  | [], _, _ => []
  | u :: us, outs, seen =>
      let stepped := genForUser outputs_db metrics u outs seen
      stepped.1 ++ genForUsers outputs_db metrics us outs stepped.2

/-- `_generate_shared_metrics`: one row per (user, output) pair — deduplicated
via `seen` — for the resolvable outputs. -/
def generate_shared_metrics (outputs_db : List MetricOutputDetail)
    (metrics : MetricsBase) (user_list : List String)
    (output_details : List OutputInfo) : List SharedFolderMetric :=
  if user_list.isEmpty || output_details.isEmpty then []
  else genForUsers outputs_db metrics user_list output_details []

/-- The final filtering loop of `_update_metrics_for_user_addition`: drop any
generated metric whose (user, output) pair is already an existing open pair,
extending the pair set as rows are kept. -/
def dedupeAgainstPairs : List SharedFolderMetric → List (String × Nat) →
    List SharedFolderMetric
  | [], _ => []
  | m :: rest, pairs =>
      if (m.file_shared_to, m.output_detail_id) ∈ pairs then
        dedupeAgainstPairs rest pairs
      else m :: dedupeAgainstPairs rest ((m.file_shared_to, m.output_detail_id) :: pairs)

/-- `_update_metrics_for_user_addition`: create open rows for the added users
over the tag's active outputs (derived from its currently-open rows),
deduplicated against existing open (user, output) pairs.  Returns the row
table together with the (in-place mutated) metrics dict. -/
def update_metrics_for_user_addition (outputs_db : List MetricOutputDetail)
    (rows : List SharedFolderMetric) (metrics : MetricsBase)
    (user_list : List String) (object_id : Nat) :
    List SharedFolderMetric × MetricsBase :=
  if user_list.isEmpty then (rows, metrics)
  else
    match _hactive : rows.filter (fun r =>
        r.tag_id == some object_id && r.file_shared_to_ts == none) with
    | [] => (rows, metrics)
    | r0 :: rrest =>
        let activeRows := r0 :: rrest
        let active_output_ids := (activeRows.map (·.output_detail_id)).dedup
        let active_output_dicts := active_output_ids.map
          (fun oid => ({ id := oid, version := none } : OutputInfo))
        let metrics1 : MetricsBase :=
          { metrics with
            comment := if metrics.comment.isNone then some r0.comment else metrics.comment,
            tag_name := if metrics.tag_name.isNone then some r0.tag_name else metrics.tag_name,
            tag_id := some object_id }
        let existing_pairs := (rows.filter (fun r =>
            r.tag_id == some object_id && r.file_shared_to_ts == none &&
            decide (r.file_shared_to ∈ user_list))).map
          (fun r => (r.file_shared_to, r.output_detail_id))
        let new_user_list := user_list.filter (fun u =>
          active_output_ids.any (fun oid => decide ((u, oid) ∉ existing_pairs)))
        if new_user_list.isEmpty then (rows, metrics1)
        else
          let shared_metrics :=
            generate_shared_metrics outputs_db metrics1 new_user_list active_output_dicts
          (rows ++ dedupeAgainstPairs shared_metrics existing_pairs, metrics1)

/-- `_update_metrics_for_user_removal`: stamp `file_shared_to_ts` on every
open row of the tag whose user is in the removed set; nothing is deleted. -/
def update_metrics_for_user_removal (rows : List SharedFolderMetric)
    (user_list : List String) (deleted_timestamp : Option Nat) (object_id : Nat) :
    List SharedFolderMetric :=
  if user_list.isEmpty then rows
  else rows.map (fun r =>
    if r.tag_id == some object_id && r.file_shared_to_ts == none &&
        decide (r.file_shared_to ∈ user_list) then
      { r with file_shared_to_ts := deleted_timestamp }
    else r)

/-- `_update_metrics_for_outputs_added_to_tag`: resolve the tag's full user
set and generate rows for the added outputs (no dedup against existing open
rows in the source). -/
def update_metrics_for_outputs_added_to_tag (tags_db : List DatabaseReleaseTag)
    (dls_db : List DistributionList) (outputs_db : List MetricOutputDetail)
    (rows : List SharedFolderMetric) (metrics : MetricsBase)
    (output_details : List OutputInfo) (object_id : Nat) :
    List SharedFolderMetric × MetricsBase :=
  if output_details.isEmpty || object_id == 0 then (rows, metrics)
  else
    let result := rows.filter (fun r => r.tag_id == some object_id)
    match tags_db.find? (fun t => t.id == object_id) with
    | none => (rows, metrics)
    | some tag =>
        let users := (tag.users ++
          get_users_from_distribution_lists dls_db tag.distribution_list_ids).dedup
        if users.isEmpty then (rows, metrics)
        else
          let metrics1 := { metrics with
            tag_name := some (result.head?.bind (·.tag_name)),
            comment := some (result.head?.bind (·.comment)),
            tag_id := some object_id }
          (rows ++ generate_shared_metrics outputs_db metrics1 users output_details,
            metrics1)

/-- `_update_metrics_for_outputs_removed_from_tag`: close the open rows of the
removed outputs. -/
def update_metrics_for_outputs_removed_from_tag (rows : List SharedFolderMetric)
    (output_ids : List Nat) (deleted_timestamp : Option Nat) (object_id : Nat) :
    List SharedFolderMetric :=
  if output_ids.isEmpty || object_id == 0 then rows
  else rows.map (fun r =>
    if r.tag_id == some object_id && decide (r.output_detail_id ∈ output_ids) &&
        r.file_shared_to_ts == none then
      { r with file_shared_to_ts := deleted_timestamp }
    else r)

/-- `_map_versions`: output id to parsed (major, minor, patch). -/
def map_versions (output_details : List OutputInfo) :
    List (Nat × (Option Nat × Option Nat × Option Nat)) :=
  output_details.filterMap (fun item =>
    match item.version with
    | none => none
    | some ver =>
        let parts := splitOnChar '.' ver
        some (item.id,
          ((parts.get? 0).bind pyParseDigits,
           (parts.get? 1).bind pyParseDigits,
           (parts.get? 2).bind pyParseDigits)))

/-- `_update_metrics_for_output_version_update`: rewrite the version snapshot
fields in place on the tag's still-open rows of the mapped outputs. -/
def update_metrics_for_output_version_update (rows : List SharedFolderMetric)
    (output_details : List OutputInfo) (object_id : Nat) :
    List SharedFolderMetric :=
  if output_details.isEmpty || object_id == 0 then rows
  else
    let version_map := map_versions output_details
    let ids := version_map.map (·.1)
    rows.map (fun r =>
      if decide (r.output_detail_id ∈ ids) && r.tag_id == some object_id &&
          r.file_shared_to_ts == none then
        match version_map.find? (fun p => p.1 == r.output_detail_id) with
        | some (_, (ma, mi, pa)) =>
            { r with
              file_version_major := ma, file_version_minor := mi,
              file_version_patch := pa }
        | none => r
      else r)

/-- `create_shared_folder_metrics` (tag CREATE): one open row per (user,
output) pair of the new tag, users being direct plus distribution-list
members. -/
def create_shared_folder_metrics (dls_db : List DistributionList)
    (outputs_db : List MetricOutputDetail) (rows : List SharedFolderMetric)
    (metrics : MetricsBase) (user_list : List String)
    (distribution_lists : List Nat) (output_details : List OutputInfo) :
    List SharedFolderMetric :=
  let users := (user_list ++
    get_users_from_distribution_lists dls_db distribution_lists).dedup
  rows ++ generate_shared_metrics outputs_db metrics users output_details

/-- `update_shared_folder_metrics_for_tag_update` (tag UPDATE / SYNC): user
diff (addition then removal), tag-name/reason propagation onto open rows,
then the output diff (`if added ... elif removed ... else` version rewrite). -/
def update_shared_folder_metrics_for_tag_update (tags_db : List DatabaseReleaseTag)
    (dls_db : List DistributionList) (outputs_db : List MetricOutputDetail)
    (rows : List SharedFolderMetric) (metrics : MetricsBase)
    (user_list old_users : List String)
    (distribution_lists old_dist_lists : List Nat)
    (output_details output_details_old : List OutputInfo)
    (ts : Option Nat) (object_id : Nat) : List SharedFolderMetric :=
  let new_dl_users := get_users_from_distribution_lists dls_db distribution_lists
  let old_dl_users := get_users_from_distribution_lists dls_db old_dist_lists
  let new_users := (user_list ++ new_dl_users).dedup
  let old_users1 := (old_users ++ old_dl_users).dedup
  let added_users := new_users.filter (fun u => decide (u ∉ old_users1))
  let removed_users := old_users1.filter (fun u => decide (u ∉ new_users))
  let stepAdd :=
    if !added_users.isEmpty then
      update_metrics_for_user_addition outputs_db rows metrics added_users object_id
    else (rows, metrics)
  let rows1 := stepAdd.1
  let metrics1 := stepAdd.2
  let rows2 :=
    if !removed_users.isEmpty then
      update_metrics_for_user_removal rows1 removed_users ts object_id
    else rows1
  let rows3 :=
    if metrics1.tag_name.isSome || metrics1.comment.isSome then
      rows2.map (fun r =>
        if r.tag_id == some object_id && r.file_shared_to_ts == none then
          { r with
            tag_name := match metrics1.tag_name with
              | some v => v
              | none => r.tag_name,
            comment := match metrics1.comment with
              | some v => v
              | none => r.comment }
        else r)
    else rows2
  let new_output_ids : List Nat :=
    ((output_details.filter (fun o => o.id != 0)).map (·.id)).dedup
  let old_output_ids : List Nat :=
    ((output_details_old.filter (fun o => o.id != 0)).map (·.id)).dedup
  let added_output_ids : List Nat :=
    new_output_ids.filter (fun i => decide (i ∉ old_output_ids))
  let removed_output_ids : List Nat :=
    old_output_ids.filter (fun i => decide (i ∉ new_output_ids))
  if !added_output_ids.isEmpty then
    let new_output_details := added_output_ids.filterMap
      (fun oid => output_details.find? (fun item => item.id == oid))
    (update_metrics_for_outputs_added_to_tag tags_db dls_db outputs_db rows3
      metrics1 new_output_details object_id).1
  else if !removed_output_ids.isEmpty then
    update_metrics_for_outputs_removed_from_tag rows3 removed_output_ids ts object_id
  else
    update_metrics_for_output_version_update rows3 output_details object_id

/-- `update_shared_folder_metrics_for_tag_deletion` (tag DELETE): close every
still-open row of the tag at the request timestamp. -/
def update_shared_folder_metrics_for_tag_deletion (rows : List SharedFolderMetric)
    (deleted_timestamp : Option Nat) (tag_id : Option Nat) :
    List SharedFolderMetric :=
  rows.map (fun r =>
    if r.tag_id == tag_id && r.file_shared_to_ts == none then
      { r with file_shared_to_ts := deleted_timestamp }
    else r)

/-- Number of open rows for a (tag, output, user) triple. -/
def openCount (rows : List SharedFolderMetric) (t o : Nat) (u : String) : Nat :=
  rows.countP (fun r => decide (r.file_shared_to_ts = none ∧ r.tag_id = some t ∧
    r.output_detail_id = o ∧ r.file_shared_to = u))

/-- The §3 `SharedFolderMetric` invariant: at most one open row per
(tag id, output id, user) triple. -/
def AtMostOneOpen (rows : List SharedFolderMetric) : Prop :=
  ∀ t o u, openCount rows t o u ≤ 1

theorem openCount_user_removal_le (rows : List SharedFolderMetric)
    (user_list : List String) (ts : Option Nat) (object_id : Nat)
    (t o : Nat) (u : String) :
    openCount (update_metrics_for_user_removal rows user_list ts object_id) t o u ≤
      openCount rows t o u := by
  unfold update_metrics_for_user_removal openCount
  by_cases hul : user_list.isEmpty
  · rw [if_pos hul]
  · rw [if_neg hul, List.countP_map]
    refine List.countP_mono_left ?_
    intro r _ hp
    by_cases hc : (r.tag_id == some object_id && r.file_shared_to_ts == none &&
        decide (r.file_shared_to ∈ user_list)) = true
    · rw [Function.comp_apply, if_pos hc] at hp
      simp only [decide_eq_true_eq] at hp ⊢
      obtain ⟨h1, h2, h3, h4⟩ := hp
      refine ⟨?_, h2, h3, h4⟩
      simp only [Bool.and_eq_true, beq_iff_eq] at hc
      exact hc.1.2
    · rw [Function.comp_apply, if_neg hc] at hp
      exact hp


theorem dedupeAgainstPairs_subset :
    ∀ (l : List SharedFolderMetric) (pairs : List (String × Nat))
      (m : SharedFolderMetric), m ∈ dedupeAgainstPairs l pairs → m ∈ l
  | [], _, m, hm => by simp [dedupeAgainstPairs] at hm
  | m0 :: rest, pairs, m, hm => by
      rw [dedupeAgainstPairs] at hm
      by_cases hk : (m0.file_shared_to, m0.output_detail_id) ∈ pairs
      · rw [if_pos hk] at hm
        exact List.mem_cons_of_mem m0 (dedupeAgainstPairs_subset rest pairs m hm)
      · rw [if_neg hk] at hm
        rcases List.mem_cons.mp hm with rfl | hm2
        · exact List.mem_cons_self m rest
        · exact List.mem_cons_of_mem m0 (dedupeAgainstPairs_subset rest _ m hm2)

theorem dedupeAgainstPairs_key_not_mem :
    ∀ (l : List SharedFolderMetric) (pairs : List (String × Nat))
      (m : SharedFolderMetric), m ∈ dedupeAgainstPairs l pairs →
      (m.file_shared_to, m.output_detail_id) ∉ pairs
  | [], _, m, hm => by simp [dedupeAgainstPairs] at hm
  | m0 :: rest, pairs, m, hm => by
      rw [dedupeAgainstPairs] at hm
      by_cases hk : (m0.file_shared_to, m0.output_detail_id) ∈ pairs
      · rw [if_pos hk] at hm
        exact dedupeAgainstPairs_key_not_mem rest pairs m hm
      · rw [if_neg hk] at hm
        rcases List.mem_cons.mp hm with rfl | hm2
        · exact hk
        · intro hcon
          exact dedupeAgainstPairs_key_not_mem rest _ m hm2
            (List.mem_cons_of_mem _ hcon)

theorem dedupeAgainstPairs_count_zero (l : List SharedFolderMetric)
    (pairs : List (String × Nat)) (p : String × Nat) (hp : p ∈ pairs) :
    (dedupeAgainstPairs l pairs).countP
      (fun m => decide ((m.file_shared_to, m.output_detail_id) = p)) = 0 := by
  rw [List.countP_eq_zero]
  intro m hm
  simp only [decide_eq_true_eq]
  intro hcon
  exact dedupeAgainstPairs_key_not_mem l pairs m hm (hcon ▸ hp)

theorem dedupeAgainstPairs_count_le_one :
    ∀ (l : List SharedFolderMetric) (pairs : List (String × Nat))
      (p : String × Nat),
      (dedupeAgainstPairs l pairs).countP
        (fun m => decide ((m.file_shared_to, m.output_detail_id) = p)) ≤ 1
  | [], _, _ => by simp [dedupeAgainstPairs]
  | m0 :: rest, pairs, p => by
      rw [dedupeAgainstPairs]
      by_cases hk : (m0.file_shared_to, m0.output_detail_id) ∈ pairs
      · rw [if_pos hk]
        exact dedupeAgainstPairs_count_le_one rest pairs p
      · rw [if_neg hk, List.countP_cons]
        by_cases hkp : (m0.file_shared_to, m0.output_detail_id) = p
        · subst hkp
          have hz := dedupeAgainstPairs_count_zero rest
            ((m0.file_shared_to, m0.output_detail_id) :: pairs)
            (m0.file_shared_to, m0.output_detail_id)
            (List.mem_cons_self _ pairs)
          rw [hz]
          simp
        · have hrec := dedupeAgainstPairs_count_le_one rest
            ((m0.file_shared_to, m0.output_detail_id) :: pairs) p
          simpa [hkp] using hrec

theorem genForUser_mem (outputs_db : List MetricOutputDetail)
    (metrics : MetricsBase) (user : String) :
    ∀ (outs : List OutputInfo) (seen : List (String × Nat))
      (m : SharedFolderMetric), m ∈ (genForUser outputs_db metrics user outs seen).1 →
      m.file_shared_to = user ∧ m.file_shared_to_ts = none ∧
        m.tag_id = metrics.tag_id ∧ m.output_detail_id ∈ outs.map (·.id)
  | [], seen, m, hm => by simp [genForUser] at hm
  | o :: rest, seen, m, hm => by
      rw [genForUser] at hm
      by_cases hseen : (user, o.id) ∈ seen
      · rw [if_pos hseen] at hm
        have h := genForUser_mem outputs_db metrics user rest seen m hm
        exact ⟨h.1, h.2.1, h.2.2.1, by
          rw [List.map_cons]
          exact List.mem_cons_of_mem _ h.2.2.2⟩
      · rw [if_neg hseen] at hm
        cases hlook : lookupOutput outputs_db o.id with
        | none =>
            rw [hlook] at hm
            have h := genForUser_mem outputs_db metrics user rest
              ((user, o.id) :: seen) m hm
            exact ⟨h.1, h.2.1, h.2.2.1, by
              rw [List.map_cons]
              exact List.mem_cons_of_mem _ h.2.2.2⟩
        | some od =>
            rw [hlook] at hm
            rcases List.mem_cons.mp hm with rfl | hm2
            · refine ⟨rfl, rfl, rfl, ?_⟩
              have hid : od.id = o.id := by
                have := List.find?_some hlook
                simpa using this
              rw [List.map_cons, build_shared_metric_data]
              exact hid ▸ List.mem_cons_self od.id _
            · have h := genForUser_mem outputs_db metrics user rest
                ((user, o.id) :: seen) m hm2
              exact ⟨h.1, h.2.1, h.2.2.1, by
                rw [List.map_cons]
                exact List.mem_cons_of_mem _ h.2.2.2⟩

theorem genForUsers_mem (outputs_db : List MetricOutputDetail)
    (metrics : MetricsBase) :
    ∀ (users : List String) (outs : List OutputInfo) (seen : List (String × Nat))
      (m : SharedFolderMetric), m ∈ genForUsers outputs_db metrics users outs seen →
      m.file_shared_to ∈ users ∧ m.file_shared_to_ts = none ∧
        m.tag_id = metrics.tag_id ∧ m.output_detail_id ∈ outs.map (·.id)
  | [], _, _, m, hm => by simp [genForUsers] at hm
  | u :: us, outs, seen, m, hm => by
      rw [genForUsers] at hm
      rcases List.mem_append.mp hm with h1 | h2
      · have h := genForUser_mem outputs_db metrics u outs seen m h1
        exact ⟨by rw [h.1]; exact List.mem_cons_self u us, h.2⟩
      · have h := genForUsers_mem outputs_db metrics us outs _ m h2
        exact ⟨List.mem_cons_of_mem u h.1, h.2⟩

theorem generate_shared_metrics_mem (outputs_db : List MetricOutputDetail)
    (metrics : MetricsBase) (user_list : List String)
    (output_details : List OutputInfo) (m : SharedFolderMetric)
    (hm : m ∈ generate_shared_metrics outputs_db metrics user_list output_details) :
    m.file_shared_to ∈ user_list ∧ m.file_shared_to_ts = none ∧
      m.tag_id = metrics.tag_id ∧ m.output_detail_id ∈ output_details.map (·.id) := by
  rw [generate_shared_metrics] at hm
  by_cases hempty : (user_list.isEmpty || output_details.isEmpty) = true
  · rw [if_pos hempty] at hm
    exact absurd hm (List.not_mem_nil m)
  · rw [if_neg hempty] at hm
    exact genForUsers_mem outputs_db metrics user_list output_details [] m hm

theorem addition_core_spec (outputs_db : List MetricOutputDetail)
    (rows : List SharedFolderMetric) (metrics1 : MetricsBase)
    (new_user_list user_list : List String) (outs : List OutputInfo)
    (object_id : Nat) (existing_pairs : List (String × Nat))
    (hmet : metrics1.tag_id = some object_id)
    (hsub : ∀ u ∈ new_user_list, u ∈ user_list)
    (hexist : ∀ r ∈ rows, r.tag_id = some object_id → r.file_shared_to_ts = none →
      r.file_shared_to ∈ user_list →
      (r.file_shared_to, r.output_detail_id) ∈ existing_pairs)
    (hinv : AtMostOneOpen rows) :
    AtMostOneOpen (rows ++ dedupeAgainstPairs
      (generate_shared_metrics outputs_db metrics1 new_user_list outs)
      existing_pairs) ∧
    ∀ m ∈ rows ++ dedupeAgainstPairs
        (generate_shared_metrics outputs_db metrics1 new_user_list outs)
        existing_pairs,
      m ∈ rows ∨ (m.tag_id = some object_id ∧ m.file_shared_to_ts = none ∧
        openCount rows object_id m.output_detail_id m.file_shared_to = 0) := by
  have hfinal : ∀ m ∈ dedupeAgainstPairs
      (generate_shared_metrics outputs_db metrics1 new_user_list outs)
      existing_pairs,
      (m.file_shared_to ∈ new_user_list ∧ m.file_shared_to_ts = none ∧
        m.tag_id = some object_id) ∧
      (m.file_shared_to, m.output_detail_id) ∉ existing_pairs := by
    intro m hm
    have h1 := generate_shared_metrics_mem outputs_db metrics1 new_user_list outs m
      (dedupeAgainstPairs_subset _ _ m hm)
    exact ⟨⟨h1.1, h1.2.1, by rw [h1.2.2.1, hmet]⟩,
      dedupeAgainstPairs_key_not_mem _ _ m hm⟩
  have hzero : ∀ m ∈ dedupeAgainstPairs
      (generate_shared_metrics outputs_db metrics1 new_user_list outs)
      existing_pairs,
      openCount rows object_id m.output_detail_id m.file_shared_to = 0 := by
    intro m hm
    by_contra hcon
    have hpos : 0 < openCount rows object_id m.output_detail_id m.file_shared_to :=
      Nat.pos_of_ne_zero hcon
    rw [openCount, List.countP_pos_iff] at hpos
    obtain ⟨r, hr, hrp⟩ := hpos
    simp only [decide_eq_true_eq] at hrp
    obtain ⟨hropen, hrtag, hrout, hruser⟩ := hrp
    have hfm := hfinal m hm
    have huser : r.file_shared_to ∈ user_list := by
      rw [hruser]
      exact hsub _ hfm.1.1
    have hkey := hexist r hr hrtag hropen huser
    rw [hruser, hrout] at hkey
    exact hfm.2 hkey
  constructor
  · intro t o u
    rw [openCount, List.countP_append]
    by_cases hflt : (dedupeAgainstPairs
        (generate_shared_metrics outputs_db metrics1 new_user_list outs)
        existing_pairs).countP
        (fun r => decide (r.file_shared_to_ts = none ∧ r.tag_id = some t ∧
          r.output_detail_id = o ∧ r.file_shared_to = u)) = 0
    · rw [hflt, Nat.add_zero]
      exact hinv t o u
    · have hpos := Nat.pos_of_ne_zero hflt
      rw [List.countP_pos_iff] at hpos
      obtain ⟨m, hm, hmp⟩ := hpos
      simp only [decide_eq_true_eq] at hmp
      obtain ⟨hmo, hmt, hmout, hmu⟩ := hmp
      have hfm := hfinal m hm
      have htid : t = object_id := by
        have h2 := hfm.1.2.2
        rw [hmt] at h2
        exact Option.some.inj h2
      subst htid
      have hz := hzero m hm
      rw [hmout, hmu, openCount] at hz
      rw [hz, Nat.zero_add]
      have hmono : (dedupeAgainstPairs
          (generate_shared_metrics outputs_db metrics1 new_user_list outs)
          existing_pairs).countP
          (fun r => decide (r.file_shared_to_ts = none ∧ r.tag_id = some t ∧
            r.output_detail_id = o ∧ r.file_shared_to = u)) ≤
          (dedupeAgainstPairs
            (generate_shared_metrics outputs_db metrics1 new_user_list outs)
            existing_pairs).countP
          (fun m' => decide ((m'.file_shared_to, m'.output_detail_id) = (u, o))) := by
        refine List.countP_mono_left ?_
        intro m' _ hp
        simp only [decide_eq_true_eq] at hp ⊢
        rw [hp.2.2.1, hp.2.2.2]
      exact hmono.trans (dedupeAgainstPairs_count_le_one _ _ _)
  · intro m hm
    rcases List.mem_append.mp hm with h | h
    · exact Or.inl h
    · right
      have hfm := hfinal m h
      exact ⟨hfm.1.2.2, hfm.1.2.1, hzero m h⟩

theorem user_addition_spec (outputs_db : List MetricOutputDetail)
    (rows : List SharedFolderMetric) (metrics : MetricsBase)
    (user_list : List String) (object_id : Nat) (hinv : AtMostOneOpen rows) :
    AtMostOneOpen (update_metrics_for_user_addition outputs_db rows metrics
      user_list object_id).1 ∧
    ∀ m ∈ (update_metrics_for_user_addition outputs_db rows metrics
        user_list object_id).1,
      m ∈ rows ∨ (m.tag_id = some object_id ∧ m.file_shared_to_ts = none ∧
        openCount rows object_id m.output_detail_id m.file_shared_to = 0) := by
  rw [update_metrics_for_user_addition]
  by_cases hul : user_list.isEmpty
  · rw [if_pos hul]
    exact ⟨hinv, fun m hm => Or.inl hm⟩
  · rw [if_neg hul]
    split
    · exact ⟨hinv, fun m hm => Or.inl hm⟩
    · simp only []
      split
      · exact ⟨hinv, fun m hm => Or.inl hm⟩
      · refine addition_core_spec outputs_db rows _ _ user_list _ object_id _
          rfl ?_ ?_ hinv
        · intro u hu
          exact (List.mem_filter.mp hu).1
        · intro r hr ht ho hu
          refine List.mem_map_of_mem _ (List.mem_filter.mpr ⟨hr, ?_⟩)
          simp [ht, ho, hu]

theorem user_removal_pointwise (rows : List SharedFolderMetric)
    (user_list : List String) (ts : Option Nat) (object_id : Nat) :
    (update_metrics_for_user_removal rows user_list ts object_id).length =
      rows.length ∧
    ∃ f, update_metrics_for_user_removal rows user_list ts object_id =
        rows.map f ∧
      ∀ r, f r = r ∨ f r = { r with file_shared_to_ts := ts } := by
  rw [update_metrics_for_user_removal]
  by_cases hul : user_list.isEmpty
  · rw [if_pos hul]
    exact ⟨rfl, id, (List.map_id rows).symm, fun r => Or.inl rfl⟩
  · rw [if_neg hul]
    refine ⟨List.length_map rows _, _, rfl, ?_⟩
    intro r
    by_cases hc : (r.tag_id == some object_id && r.file_shared_to_ts == none &&
        decide (r.file_shared_to ∈ user_list)) = true
    · exact Or.inr (by rw [if_pos hc])
    · exact Or.inl (by rw [if_neg hc])

/-- C6: the metrics reconciler's user-removal and user-addition operations
preserve the at-most-one-open-row-per-(tag, output, user) invariant; closing
(`_update_metrics_for_user_removal`) never deletes a row — it maps each row
either to itself or to itself with only `file_shared_to_ts` stamped — and
adding users (`_update_metrics_for_user_addition`) appends only open rows
whose (user, output) pair has no open row for the tag in the prior state. -/
theorem metrics_open_invariant_c6 (outputs_db : List MetricOutputDetail)
    (rows : List SharedFolderMetric) (metrics : MetricsBase)
    (added_users removed_users : List String) (ts : Option Nat)
    (object_id : Nat) (hinv : AtMostOneOpen rows) :
    AtMostOneOpen (update_metrics_for_user_removal rows removed_users ts
      object_id) ∧
    AtMostOneOpen (update_metrics_for_user_addition outputs_db rows metrics
      added_users object_id).1 ∧
    ((update_metrics_for_user_removal rows removed_users ts object_id).length =
        rows.length ∧
      ∃ f, update_metrics_for_user_removal rows removed_users ts object_id =
          rows.map f ∧
        ∀ r, f r = r ∨ f r = { r with file_shared_to_ts := ts }) ∧
    (∀ m ∈ (update_metrics_for_user_addition outputs_db rows metrics
        added_users object_id).1,
      m ∈ rows ∨ (m.tag_id = some object_id ∧ m.file_shared_to_ts = none ∧
        openCount rows object_id m.output_detail_id m.file_shared_to = 0)) := by
  have hadd := user_addition_spec outputs_db rows metrics added_users object_id hinv
  refine ⟨?_, hadd.1, user_removal_pointwise rows removed_users ts object_id,
    hadd.2⟩
  intro t o u
  exact (openCount_user_removal_le rows removed_users ts object_id t o u).trans
    (hinv t o u)

/-- A single open metrics row for the C6 witness. -/
def c6Row : SharedFolderMetric :=
  ⟨some 1, some "T", some "RC", 10, "alice", some "creator", none, none, none,
    none, none, none, none, none, none, some 0, none⟩

/-- C6 witness: the invariant theorem evaluated on a one-open-row state. -/
theorem metrics_open_invariant_c6_witness :
    AtMostOneOpen [c6Row] ∧
    (update_metrics_for_user_removal [c6Row] ["alice"] (some 5) 1).length = 1 := by
  have hinv : AtMostOneOpen [c6Row] := by
    intro t o u
    exact Nat.le_trans (List.countP_le_length _) (by decide)
  refine ⟨hinv, ?_⟩
  exact ((metrics_open_invariant_c6 [] [c6Row] ⟨some 5, some 1, none, none, none⟩
    [] ["alice"] (some 5) 1 hinv).2.2.1.1).trans (by decide)

/-- The single output of the C7 metrics scenario. -/
def c7Output : MetricOutputDetail :=
  ⟨10, some "CompoundX", some "StudyY", some "DBR1", none, some "adr/path/file.pdf"⟩

/-- Extracted metrics of the CREATE batch at t0 = 0 (tag 1 named "T"). -/
def c7Mets0 : MetricsBase :=
  ⟨some 0, some 1, some (some "RC"), some (some "T"), some "creator"⟩

/-- State after creating tag 1 with users ["alice"] and outputs [10] at t0. -/
def c7Rows1 : List SharedFolderMetric :=
  create_shared_folder_metrics [] [c7Output] [] c7Mets0 ["alice"] []
    [⟨10, some "0.1"⟩]

/-- Extracted metrics of the t1 = 1 update (users go from ["alice"] to []). -/
def c7Mets1 : MetricsBase := ⟨some 1, some 1, none, none, some "updater"⟩

/-- State after the update removing "alice" at t1. -/
def c7Rows2 : List SharedFolderMetric :=
  update_shared_folder_metrics_for_tag_update [] [] [c7Output] c7Rows1 c7Mets1
    [] ["alice"] [] [] [] [] (some 1) 1

/-- Extracted metrics of the t2 = 2 update (users go from [] to ["alice"]). -/
def c7Mets2 : MetricsBase := ⟨some 2, some 1, none, none, some "updater"⟩

/-- State after the update re-adding "alice" at t2. -/
def c7Rows3 : List SharedFolderMetric :=
  update_shared_folder_metrics_for_tag_update [] [] [c7Output] c7Rows2 c7Mets2
    ["alice"] [] [] [] [] [] (some 2) 1

/-- The open row the CREATE step must produce. -/
def c7Row0 : SharedFolderMetric :=
  ⟨some 1, some "T", some "RC", 10, "alice", some "creator",
    some "adr/path/file.pdf", some "file.pdf", some "CompoundX", some "StudyY",
    some "DBR1", none, some 0, some 1, none, some 0, none⟩

/-- C7 counterexample: after the t2 re-add there is NO open row at all — in
particular no new open row (tag 1, output 10, alice, shared_from = t2): the
re-add is a silent no-op because `_update_metrics_for_user_addition` derives
the tag's active outputs from its currently-open rows and returns early when
none remain. -/
theorem metrics_readd_counterexample_c7 :
    ¬ (∃ m ∈ c7Rows3, m.file_shared_to_ts = none ∧
        m.file_shared_from_ts = some 2 ∧ m.file_shared_to = "alice" ∧
        m.tag_id = some 1 ∧ m.output_detail_id = 10) := by
  decide

/-- C7 amended: the create step makes exactly one open row
(tag 1, output 10, alice, shared_from = t0); the removal closes it with
shared_to = t1 and creates no new row; the re-add at t2 creates nothing — the
state is unchanged (the t0 row remains closed and untouched) because no open
rows remain for the tag from which the addition could derive active outputs. -/
theorem metrics_scenario_c7 :
    c7Rows1 = [c7Row0] ∧
    c7Rows2 = [{ c7Row0 with file_shared_to_ts := some 1 }] ∧
    c7Rows3 = c7Rows2 := by
  refine ⟨by decide, by decide, by decide⟩

end Orca
